import Mathlib

/-!
Verification of the `support_scraper` pipeline (chat-support repository).

This file gives a shallow embedding, in Lean 4, of the parts of the source
that the specification's claims speak about:

* `src/support_scraper/utils.py` — `estimate_tokens`, `normalize_whitespace`;
* `src/support_scraper/chunker.py` — `_parse_sections`, `_split_blocks`,
  `_is_list_block`, `_split_long_text`, `_split_list_block`, `chunk_article`;
* `src/support_scraper/extractor.py` — the `content_hash` construction;
* `src/support_scraper/normalizer.py` — `ArticleMarkdownConverter`'s heading
  conversions;
* `src/support_scraper/fetcher.py` — `HttpFetcher.fetch`'s retry loop and
  response classification, `_is_blocked_html`;
* `src/support_scraper/cache.py` — `Cache.upsert`'s insert-or-coalesce merge;
* `src/support_scraper/scraper.py` — the per-URL `process` state machine.

Python strings are modelled as Lean `String` (a list of unicode code points,
matching Python's `len`/indexing on code points).  Python's `\s`, `str.strip`
and `str.splitlines` are modelled for the characters that occur in this
pipeline's data: whitespace is ` `, TAB, LF, CR, VT, FF, and line boundaries
are LF, CRLF, CR (Python additionally treats VT, FF and some rare unicode
characters as line boundaries; none of those reach the chunker, whose input
has passed `normalize_whitespace`).  `int(len(text) / 4)` (float division,
truncated) is modelled as natural division by 4, exact for every length below
2^52. Asynchronous effects (the sqlite cache, the HTTP clients, the stats
object) are modelled by explicit state passing; the outcome of each network
round trip is an oracle parameter of the embedded function.
-/

/-- Python `\s` on the characters this pipeline can see: space, TAB, LF, CR,
VT (0x0b), FF (0x0c).  Used for the regexes' `\s` and for `str.strip()`. -/
def isPySpace (c : Char) : Bool :=
  c = ' ' || c = '\t' || c = '\n' || c = '\r' || c = Char.ofNat 11 || c = Char.ofNat 12

/-- Python `str.strip()` on a character list. -/
def stripChars (cs : List Char) : List Char :=
  ((cs.dropWhile isPySpace).reverse.dropWhile isPySpace).reverse

/-- Python `str.strip()`. -/
def pyStrip (s : String) : String :=
  String.mk (stripChars s.data)

/-- Python `"\r\n" -> "\n"` (`re.sub(r"\r\n", "\n", text)` in
`normalize_whitespace`, utils.py line 121). -/
def replCRLF : List Char → List Char
  | '\r' :: '\n' :: rest => '\n' :: replCRLF rest
  | c :: rest => c :: replCRLF rest
  | [] => []

/-- Character class of `re.sub(r"[ \t]+", " ", text)` (utils.py line 122). -/
def isSpaceTab (c : Char) : Bool :=
  c = ' ' || c = '\t'

/-- Scanner for `re.sub(r"[ \t]+", " ", text)` (utils.py line 122).  The
flag says whether the scanner stands inside a run of space/TAB characters
(the run has already been replaced by one space). -/
def cstAux : Bool → List Char → List Char
  | _, [] => []
  | inRun, c :: rest =>
    if isSpaceTab c then
      if inRun then cstAux true rest else ' ' :: cstAux true rest
    else c :: cstAux false rest

/-- Scanner for `re.sub(r"\n{3,}", "\n\n", text)` (utils.py line 123).  The
counter is the length of the newline run consumed so far; a run of three or
more newlines is emitted as two, a shorter run is kept. -/
def cnlAux : Nat → List Char → List Char
  | n, '\n' :: rest => cnlAux (n + 1) rest
  | n, c :: rest => List.replicate (if 3 ≤ n then 2 else n) '\n' ++ c :: cnlAux 0 rest
  | n, [] => List.replicate (if 3 ≤ n then 2 else n) '\n'

/-- `normalize_whitespace` (utils.py lines 120-124): CRLF to LF, space/TAB
runs to one space, three or more newlines to two, then `strip()`. -/
def normalize_whitespace (s : String) : String :=
  String.mk (stripChars (cnlAux 0 (cstAux false (replCRLF s.data))))

/-- `estimate_tokens` (utils.py lines 109-113): `0` for an empty string
(`if not text: return 0`), else `max(1, int(len(text) / 4))`. -/
def estimate_tokens (s : String) : Nat :=
  if s.data.isEmpty then 0 else max 1 (s.data.length / 4)

/-- Python `sep.join(parts)`. -/
def joinSep (sep : String) : List String → String
  | [] => ""
  | [x] => x
  | x :: xs => x ++ sep ++ joinSep sep xs

/-- A line-boundary character for `str.splitlines()` as modelled here:
LF or CR (CRLF is one boundary, handled by `splitLinesGo`). -/
def isNlChar (c : Char) : Bool :=
  c = '\n' || c = '\r'

/-- Scanner for Python `str.splitlines()`: `acc` holds the current line
reversed.  At the very end a line is emitted only if nonempty-or-started,
matching `"".splitlines() == []` and `"a\n".splitlines() == ["a"]`. -/
def splitLinesGo : List Char → List Char → List String
  | '\r' :: '\n' :: rest, acc => String.mk acc.reverse :: splitLinesGo rest []
  | c :: rest, acc =>
    if isNlChar c then String.mk acc.reverse :: splitLinesGo rest []
    else splitLinesGo rest (c :: acc)
  | [], acc => if acc.isEmpty then [] else [String.mk acc.reverse]

/-- Python `str.splitlines()` for LF / CRLF / CR boundaries. -/
def pySplitLines (s : String) : List String :=
  splitLinesGo s.data []

/-- One section of `_parse_sections` (chunker.py lines 7-40): the heading
path (document title, then the active heading stack), the innermost heading
(`section` in the Python dict) and the markdown between this heading and the
next one at the same or shallower level. -/
structure MdSection where
  heading_path : List String
  sectionLabel : String
  content : String
deriving Repr, DecidableEq

/-- The heading regex `^(#{2,4})\s+(.*)$` of `_parse_sections` (chunker.py
line 26): a run of two to four `#` followed by at least one whitespace
character.  Returns `(level, group(2))` where `level = len(group(1)) - 1`
(chunker.py line 29) and `group(2)` is the rest of the line after the
maximal whitespace run. -/
def parseHeading (line : String) : Option (Nat × String) :=
  let cs := line.data
  let hashes := cs.takeWhile (fun c => c = '#')
  let rest := cs.dropWhile (fun c => c = '#')
  if 2 ≤ hashes.length ∧ hashes.length ≤ 4 then
    match rest with
    | c :: _ =>
      if isPySpace c then some (hashes.length - 1, String.mk (rest.dropWhile isPySpace))
      else none
    | [] => none
  else none

/-- State of the `_parse_sections` loop: sections emitted so far (in order),
the heading stack, and the buffered lines of the current section. -/
structure ParseState where
  sections : List MdSection
  stack : List String
  buffer : List String
deriving Repr

/-- `flush()` of `_parse_sections` (chunker.py lines 13-23): join the buffer,
strip it, and emit a section if the result is nonempty. -/
def flushSection (title : String) (st : ParseState) : ParseState :=
  if st.buffer.isEmpty then st
  else
    let content := pyStrip (joinSep "\n" st.buffer)
    if content = "" then { st with buffer := [] }
    else
      let heading_path := title :: st.stack
      let sectionLabel := st.stack.getLast?.getD title
      { st with
          sections := st.sections ++ [⟨heading_path, sectionLabel, content⟩]
          buffer := [] }

/-- One line of the `_parse_sections` loop (chunker.py lines 25-36): a
heading line flushes the buffer and adjusts the stack (`while len(stack) >=
level: stack.pop()`, then push the stripped heading text if nonempty); any
other line is buffered. -/
def parseSectionsStep (title : String) (st : ParseState) (line : String) : ParseState :=
  match parseHeading line with
  | some (level, group2) =>
    let st := flushSection title st
    let text := pyStrip group2
    let stack := st.stack.take (level - 1)
    let stack := if text = "" then stack else stack ++ [text]
    { st with stack := stack }
  | none => { st with buffer := st.buffer ++ [line] }

/-- `_parse_sections` (chunker.py lines 7-40): fold the loop over the lines,
flush, and fall back to one whole-document section when nothing was
emitted. -/
def parse_sections (markdown : String) (title : String) : List MdSection :=
  let st := (pySplitLines markdown).foldl (parseSectionsStep title) ⟨[], [], []⟩
  let st := flushSection title st
  if st.sections.isEmpty then [⟨[title], title, pyStrip markdown⟩]
  else st.sections

/-- Python `line.strip().startswith("```")` (chunker.py line 48), written
with `Char.ofNat 96` for the backquote character. -/
def startsFence (line : String) : Bool :=
  match (pyStrip line).data with
  | a :: b :: c :: _ => a = Char.ofNat 96 && b = Char.ofNat 96 && c = Char.ofNat 96
  | _ => false

/-- The loop of `_split_blocks` (chunker.py lines 43-66): split a section's
content into blocks at blank lines, keeping fenced-code regions atomic.
`current` is the buffered lines of the current block, `inCode` the fence
flag. -/
def splitBlocksGo : List String → List String → Bool → List String
  | [], current, _ =>
    if current.isEmpty then [] else [pyStrip (joinSep "\n" current)]
  | line :: rest, current, inCode =>
    if startsFence line then
      let current := current ++ [line]
      if inCode then pyStrip (joinSep "\n" current) :: splitBlocksGo rest [] false
      else splitBlocksGo rest current true
    else if inCode then splitBlocksGo rest (current ++ [line]) inCode
    else if pyStrip line = "" then
      if current.isEmpty then splitBlocksGo rest [] false
      else pyStrip (joinSep "\n" current) :: splitBlocksGo rest [] false
    else splitBlocksGo rest (current ++ [line]) false

/-- `_split_blocks` (chunker.py lines 43-66), including the final
`[b for b in blocks if b]` filter. -/
def split_blocks (text : String) : List String :=
  (splitBlocksGo (pySplitLines text) [] false).filter (fun b => b ≠ "")

/-- The regex `^\d+\.\s+` of `_is_list_block` / `_split_list_block`
(chunker.py lines 70 and 95): one or more digits, a dot, then at least one
whitespace character. -/
def digitsDotWs (cs : List Char) : Bool :=
  let ds := cs.takeWhile Char.isDigit
  let rest := cs.dropWhile Char.isDigit
  !ds.isEmpty &&
    match rest with
    | '.' :: c :: _ => isPySpace c
    | _ => false

/-- Python `line.strip().startswith("-") or re.match(r"^\d+\.\s+",
line.strip())` (chunker.py lines 70 and 95). -/
def isItemStartLine (line : String) : Bool :=
  let s := pyStrip line
  (match s.data with
   | '-' :: _ => true
   | _ => false) || digitsDotWs s.data

/-- `_is_list_block` (chunker.py lines 69-70): some line of the block starts
a list item. -/
def is_list_block (block : String) : Bool :=
  (pySplitLines block).any isItemStartLine

/-- The sentence regex `re.split(r"(?<=[.!?])\s+", block)` of
`_split_long_text` (chunker.py line 74): the lookbehind class. -/
def isSentPunct (c : Char) : Bool :=
  c = '.' || c = '!' || c = '?'

/-- Lookbehind of the sentence regex: the last character consumed into the
current piece. -/
def headIsSentPunct : List Char → Bool
  | p :: _ => isSentPunct p
  | [] => false

/-- Scanner for `re.split(r"(?<=[.!?])\s+", block)`: `skipMode` is true
while the scanner consumes the (greedy) whitespace run of a match, `acc`
holds the current piece reversed. -/
def sentGo : Bool → List Char → List Char → List String
  | _, [], acc => [String.mk acc.reverse]
  | skipMode, c :: rest, acc =>
    if skipMode && isPySpace c then sentGo true rest acc
    else if isPySpace c && headIsSentPunct acc then
      String.mk acc.reverse :: sentGo true rest []
    else sentGo false rest (c :: acc)

/-- `re.split(r"(?<=[.!?])\s+", block)` (chunker.py line 74). -/
def splitSentences (block : String) : List String :=
  sentGo false block.data []

/-- The greedy packing loop of `_split_long_text` (chunker.py lines 75-88):
empty sentences are skipped; when the tentative chunk exceeds `max_tokens`
and the current group is nonempty, the group is flushed and the sentence
starts a new group. -/
def packSentences (max_tokens : Nat) : List String → List String → List String
  | [], current =>
    if current.isEmpty then [] else [pyStrip (joinSep " " current)]
  | s :: rest, current =>
    if s = "" then packSentences max_tokens rest current
    else if max_tokens < estimate_tokens (pyStrip (joinSep " " (current ++ [s])))
        && !current.isEmpty then
      pyStrip (joinSep " " current) :: packSentences max_tokens rest [s]
    else packSentences max_tokens rest (current ++ [s])

/-- `_split_long_text` (chunker.py lines 73-88). -/
def split_long_text (block : String) (max_tokens : Nat) : List String :=
  packSentences max_tokens (splitSentences block) []

/-- The item-grouping loop of `_split_list_block` (chunker.py lines 92-101):
every line that starts a list item flushes the current group and begins a
new one; other lines continue the current group. -/
def listItemsGo : List String → List String → List String
  | [], current =>
    if current.isEmpty then [] else [joinSep "\n" current]
  | line :: rest, current =>
    if isItemStartLine line then
      if current.isEmpty then listItemsGo rest [line]
      else joinSep "\n" current :: listItemsGo rest [line]
    else listItemsGo rest (current ++ [line])

/-- The item groups of `_split_list_block` (chunker.py lines 92-101). -/
def listItemsOf (block : String) : List String :=
  listItemsGo (pySplitLines block) []

/-- The greedy packing loop of `_split_list_block` (chunker.py lines
103-114), identical to the sentence packing but joining with a newline and
not skipping empty items. -/
def packItems (max_tokens : Nat) : List String → List String → List String
  | [], current =>
    if current.isEmpty then [] else [pyStrip (joinSep "\n" current)]
  | i :: rest, current =>
    if max_tokens < estimate_tokens (pyStrip (joinSep "\n" (current ++ [i])))
        && !current.isEmpty then
      pyStrip (joinSep "\n" current) :: packItems max_tokens rest [i]
    else packItems max_tokens rest (current ++ [i])

/-- `_split_list_block` (chunker.py lines 91-114). -/
def split_list_block (block : String) (max_tokens : Nat) : List String :=
  packItems max_tokens (listItemsOf block) []

/-- The article fields read by the chunker (`article.get(...)` in chunker.py
lines 118-119 and 183-199; absent keys default to the values modelled
here). -/
structure Article where
  doc_id : String
  url : String
  title : String
  body_markdown : String
  updated_at : Option String
  breadcrumbs : List String
  tags : List String
  scraped_at : Option String
  content_hash : Option String
deriving Repr, DecidableEq

/-- The chunking configuration read by `chunk_article` (chunker.py lines
122-123); the Python defaults 500 / 200 are applied by the caller of this
model. -/
structure ChunkCfg where
  max_tokens : Nat
  min_tokens : Nat
deriving Repr, DecidableEq

/-- One chunk as built by `_build_chunk` (chunker.py lines 183-199). -/
structure Chunk where
  chunk_id : String
  doc_id : String
  url : String
  title : String
  heading_path : List String
  sectionLabel : String
  text : String
  tokens_estimate : Nat
  updated_at : Option String
  breadcrumbs : List String
  tags : List String
  scraped_at : Option String
  content_hash : Option String
deriving Repr, DecidableEq

/-- `_build_chunk` (chunker.py lines 183-199): normalize the text, estimate
its tokens, copy the denormalized article fields. -/
def build_chunk (a : Article) (sec : MdSection) (text : String) (index : Nat) : Chunk :=
  let t := normalize_whitespace text
  { chunk_id := a.doc_id ++ "#" ++ toString index
    doc_id := a.doc_id
    url := a.url
    title := a.title
    heading_path := sec.heading_path
    sectionLabel := sec.sectionLabel
    text := t
    tokens_estimate := estimate_tokens t
    updated_at := a.updated_at
    breadcrumbs := a.breadcrumbs
    tags := a.tags
    scraped_at := a.scraped_at
    content_hash := a.content_hash }

/-- The flush of `current_lines` in `chunk_article` (chunker.py lines
137-143 and 156-160): join with blank lines, strip, and emit a chunk (and
advance the index) only when the result is nonempty. -/
def flushCurrent (a : Article) (sec : MdSection) (current : List String) (idx : Nat) :
    List Chunk × Nat :=
  if current.isEmpty then ([], idx)
  else
    let ct := pyStrip (joinSep "\n\n" current)
    if ct = "" then ([], idx) else ([build_chunk a sec ct idx], idx + 1)

/-- The `for sub in sub_blocks` loop of `chunk_article` (chunker.py lines
137-145): before the first sub-chunk any pending `current_lines` are
flushed; each sub-chunk becomes its own chunk.  Returns the emitted chunks,
the remaining `current_lines` (unchanged when `subs` is empty) and the next
index. -/
def emitSubs (a : Article) (sec : MdSection) :
    List String → List String → Nat → List Chunk × List String × Nat
  | [], current, idx => ([], current, idx)
  | sub :: rest, current, idx =>
    let pre := flushCurrent a sec current idx
    let c := build_chunk a sec sub pre.2
    let tail := emitSubs a sec rest [] (pre.2 + 1)
    (pre.1 ++ c :: tail.1, tail.2.1, tail.2.2)

/-- The `for block in blocks` loop of `chunk_article` (chunker.py lines
129-160), including the end-of-section flush: oversized blocks are split
(list blocks by items, others by sentences) and each sub-chunk emitted on
its own; other blocks are packed greedily into `current_lines`. -/
def processBlocks (a : Article) (cfg : ChunkCfg) (sec : MdSection) :
    List String → List String → Nat → List Chunk × Nat
  | [], current, idx => flushCurrent a sec current idx
  | b :: rest, current, idx =>
    if cfg.max_tokens < estimate_tokens b then
      let subs :=
        if is_list_block b then split_list_block b cfg.max_tokens
        else split_long_text b cfg.max_tokens
      let step := emitSubs a sec subs current idx
      let done := processBlocks a cfg sec rest step.2.1 step.2.2
      (step.1 ++ done.1, done.2)
    else
      let tentative := pyStrip (joinSep "\n\n" (current ++ [b]))
      if cfg.max_tokens < estimate_tokens tentative && !current.isEmpty then
        let pre := flushCurrent a sec current idx
        let done := processBlocks a cfg sec rest [b] pre.2
        (pre.1 ++ done.1, done.2)
      else processBlocks a cfg sec rest (current ++ [b]) idx

/-- The `for section in sections` loop of `chunk_article` (chunker.py lines
126-160), threading the chunk index across sections. -/
def chunkLoop (a : Article) (cfg : ChunkCfg) : List MdSection → Nat → List Chunk
  | [], _ => []
  | sec :: rest, idx =>
    let done := processBlocks a cfg sec (split_blocks sec.content) [] idx
    done.1 ++ chunkLoop a cfg rest done.2

/-- The chunk sequence of `chunk_article` before the merge pass (chunker.py
lines 117-160). -/
def premergeChunks (a : Article) (cfg : ChunkCfg) : List Chunk :=
  chunkLoop a cfg (parse_sections a.body_markdown a.title) 0

/-- The merge pass of `chunk_article` (chunker.py lines 162-176): a chunk
whose estimate is below `min_tokens` is concatenated into the buffered
predecessor (blank-line separator, then `normalize_whitespace`, estimate
recomputed); otherwise the buffer is emitted and the chunk becomes the new
buffer. -/
def mergeTinyGo (min_tokens : Nat) : List Chunk → Option Chunk → List Chunk
  | [], none => []
  | [], some b => [b]
  | c :: rest, none => mergeTinyGo min_tokens rest (some c)
  | c :: rest, some b =>
    if c.tokens_estimate < min_tokens then
      let t := normalize_whitespace (b.text ++ "\n\n" ++ c.text)
      mergeTinyGo min_tokens rest
        (some { b with text := t, tokens_estimate := estimate_tokens t })
    else b :: mergeTinyGo min_tokens rest (some c)

/-- The merge pass of `chunk_article` (chunker.py lines 162-176). -/
def mergeTiny (min_tokens : Nat) (chunks : List Chunk) : List Chunk :=
  mergeTinyGo min_tokens chunks none

/-- The re-indexing pass of `chunk_article` (chunker.py lines 177-179):
`chunk["chunk_id"] = f"{article[...]}#{idx}"` for `idx` in enumeration
order, written here with the starting index explicit. -/
def reindexFrom (doc_id : String) : Nat → List Chunk → List Chunk
  | _, [] => []
  | i, c :: rest => { c with chunk_id := doc_id ++ "#" ++ toString i } :: reindexFrom doc_id (i + 1) rest

/-- `chunk_article` (chunker.py lines 117-180): parse sections, pack blocks,
merge undersized chunks into their predecessor, re-number. -/
def chunk_article (a : Article) (cfg : ChunkCfg) : List Chunk :=
  reindexFrom a.doc_id 0 (mergeTiny cfg.min_tokens (premergeChunks a cfg))

/-- The atomic units of a block, as the oversized-block splitter of
`chunk_article` (chunker.py lines 131-136) would produce them: the item
groups for a list-like block, the sentences otherwise. -/
def unitsOfBlock (b : String) : List String :=
  if is_list_block b then listItemsOf b else splitSentences b

/-- All blocks of an article, in chunking order. -/
def blocksOf (a : Article) : List String :=
  (parse_sections a.body_markdown a.title).flatMap (fun sec => split_blocks sec.content)

/-- All atomic units (sentences of non-list blocks, item groups of list
blocks) of an article's blocks. -/
def allUnits (a : Article) : List String :=
  (blocksOf a).flatMap unitsOfBlock

/-- The pre-image string of `content_hash` (extractor.py line 230):
`f"{title}|{updated_at or ''}|{markdown}"`.  `sha256_text` (utils.py lines
26-27) is modelled as an injective fingerprint of this string — SHA-256 is
collision-free for every input this system can see — so equality of stored
hashes is equality of these strings. -/
def contentHashInput (title : String) (updated_at : Option String) (markdown : String) : String :=
  title ++ "|" ++ updated_at.getD "" ++ "|" ++ markdown

/-- The heading conversions of `ArticleMarkdownConverter` (normalizer.py
lines 11-26): `h1` and `h2` become `## `, `h3` becomes `### `, `h4` becomes
`#### `; deeper headings keep markdownify's default ATX form (the class
overrides only levels 1-4). -/
def convertHeading (n : Nat) (text : String) : String :=
  match n with
  | 1 => "## " ++ text ++ "\n\n"
  | 2 => "## " ++ text ++ "\n\n"
  | 3 => "### " ++ text ++ "\n\n"
  | 4 => "#### " ++ text ++ "\n\n"
  | k => String.mk (List.replicate k '#') ++ " " ++ text ++ "\n\n"

/-- The markdown heading level produced for an `h<n>` element: the length of
the `#` prefix that `convertHeading` emits. -/
def mdHeadingLevel (n : Nat) : Nat :=
  ((convertHeading n "").data.takeWhile (fun c => c = '#')).length

/-- First index at which `needle` is a prefix of the remaining text, used by
the scanners of `_is_blocked_html` (fetcher.py lines 96-109). -/
def findSub (needle : List Char) : List Char → Option Nat
  | [] => if needle.isEmpty then some 0 else none
  | c :: rest =>
    if needle.isPrefixOf (c :: rest) then some 0
    else (findSub needle rest).map (· + 1)

/-- Whether `needle` occurs in `hay` (Python `needle in hay`). -/
def containsSub (needle hay : List Char) : Bool :=
  (findSub needle hay).isSome

/-- One lazy-block removal pass of `_is_blocked_html` (fetcher.py lines
100-101): `re.sub(r"(?is)<open.*?>.*?</close>", " ", text)`.  From each
occurrence of the opener, the match runs to the first `>` and then to the
first closer; if either is missing the pattern cannot match there or at any
later occurrence (both lie in a suffix), so the text is returned as is.
The fuel argument only bounds the recursion: every step consumes at least
one character (the opener is nonempty), so `cs.length` fuel is never
exhausted. -/
def stripTagBlocksGo (openTag closeTag : List Char) : Nat → List Char → List Char
  | 0, cs => cs
  | fuel + 1, cs =>
    match findSub openTag cs with
    | none => cs
    | some i =>
      let pre := cs.take i
      let rest := cs.drop (i + openTag.length)
      match rest.findIdx? (fun c => c = '>') with
      | none => cs
      | some j =>
        let rest2 := rest.drop (j + 1)
        match findSub closeTag rest2 with
        | none => cs
        | some k =>
          pre ++ ' ' :: stripTagBlocksGo openTag closeTag fuel (rest2.drop (k + closeTag.length))

/-- The lazy-block removal `re.sub(r"(?is)<open.*?>.*?</close>", " ", cs)`. -/
def stripTagBlocks (openTag closeTag : List Char) (cs : List Char) : List Char :=
  stripTagBlocksGo openTag closeTag cs.length cs

/-- The `<[^>]+>` removal of `_is_blocked_html` (fetcher.py line 102): at a
`<`, if a `>` follows with at least one character in between, the whole tag
becomes one space; otherwise the `<` is kept.  Fuel as in
`stripTagBlocksGo`. -/
def stripAllTagsGo : Nat → List Char → List Char
  | 0, cs => cs
  | _ + 1, [] => []
  | fuel + 1, '<' :: rest =>
    (match rest.findIdx? (fun c => c = '>') with
     | some j =>
       if j = 0 then '<' :: stripAllTagsGo fuel rest
       else ' ' :: stripAllTagsGo fuel (rest.drop (j + 1))
     | none => '<' :: stripAllTagsGo fuel rest)
  | fuel + 1, c :: rest => c :: stripAllTagsGo fuel rest

/-- The `re.sub(r"(?is)<[^>]+>", " ", text)` pass of `_is_blocked_html`. -/
def stripAllTags (cs : List Char) : List Char :=
  stripAllTagsGo cs.length cs

/-- The `\s+` collapse of `_is_blocked_html` (fetcher.py line 103), same
scanner shape as `cstAux` but over the full whitespace class. -/
def collapseWsAux : Bool → List Char → List Char
  | _, [] => []
  | inRun, c :: rest =>
    if isPySpace c then
      if inRun then collapseWsAux true rest else ' ' :: collapseWsAux true rest
    else c :: collapseWsAux false rest

/-- The block-indicating keywords of fetcher.py lines 14-19. -/
def blockedKeywords : List (List Char) :=
  [("access denied").data, ("forbidden").data, ("blocked").data, ("verify you are human").data]

/-- The phrase `"i'm not a robot"` (fetcher.py line 107), spelled with
`Char.ofNat 39` for the apostrophe. -/
def robotPhrase : List Char :=
  ['i', Char.ofNat 39, 'm', ' ', 'n', 'o', 't', ' ', 'a', ' ', 'r', 'o', 'b', 'o', 't']

/-- `_is_blocked_html` (fetcher.py lines 96-109): lowercase, drop script and
style blocks, drop all remaining markup, collapse whitespace, then search
for block-indicating phrases (Python `str.lower` is modelled as ASCII
lowercasing, exact for the ASCII keywords searched). -/
def isBlockedHtml (html : String) : Bool :=
  let lower := html.data.map Char.toLower
  let s1 := stripTagBlocks ("<script").data ("</script>").data lower
  let s2 := stripTagBlocks ("<style").data ("</style>").data s1
  let s3 := stripAllTags s2
  let text := collapseWsAux false s3
  blockedKeywords.any (fun kw => containsSub kw text) ||
    (containsSub ("captcha").data text && containsSub robotPhrase text)

/-- The kind of exception a fetch attempt raises: `BlockedError` (a subclass
of `FetchError`, fetcher.py lines 22-27), a plain `FetchError`, or
`httpx.RequestError`.  The retry loop of `HttpFetcher.fetch` catches all
three through `except (httpx.RequestError, FetchError)` (fetcher.py line
89) — `BlockedError` is caught because it subclasses `FetchError`. -/
inductive FetchExcKind where
  | blocked
  | fetchError
  | requestError
deriving Repr, DecidableEq

/-- What one network round trip of `HttpFetcher.fetch` produces before
classification: an HTTP response (status and body text), or a transport
failure (`httpx.RequestError`). -/
inductive AttemptInput where
  | response (status : Nat) (body : String)
  | requestError (msg : String)

/-- The classified result of one attempt of `HttpFetcher.fetch` (fetcher.py
lines 76-88): a 304 returns a not-modified result, 401/403 raise
`BlockedError`, a 5xx raises `FetchError`, a block-indicating body raises
`BlockedError`, anything else returns the body. -/
inductive StepResult where
  | retOk (status : Nat) (body : String)
  | retNotMod
  | raised (k : FetchExcKind) (msg : String)
deriving Repr, DecidableEq

/-- The response classification of `HttpFetcher.fetch` (fetcher.py lines
79-88). -/
def classifyAttempt (a : AttemptInput) : StepResult :=
  match a with
  | .requestError msg => .raised .requestError msg
  | .response st body =>
    if st = 304 then .retNotMod
    else if st = 401 ∨ st = 403 then .raised .blocked ("HTTP " ++ toString st)
    else if 500 ≤ st then .raised .fetchError ("HTTP " ++ toString st)
    else if isBlockedHtml body then .raised .blocked "Blocked or captcha detected"
    else .retOk st body

/-- The backoff delay slept after a failed non-final attempt (fetcher.py
line 92): `min(backoff_base ** attempt, backoff_max)`, with the float
arithmetic modelled exactly over the rationals. -/
def backoffDelay (base cap : ℚ) (attempt : Nat) : ℚ :=
  min (base ^ attempt) cap

/-- How `HttpFetcher.fetch` ends: a body returned, a 304 returned, the final
attempt's exception re-raised, or — when `retries` is zero — the loop body
never ran (the Python function then returns `None`).  Each constructor
carries the index of the deciding attempt and the backoff delays slept
before it, in order. -/
inductive LoopOutcome where
  | success (status : Nat) (body : String) (attempt : Nat) (delays : List ℚ)
  | notModified (attempt : Nat) (delays : List ℚ)
  | raised (k : FetchExcKind) (msg : String) (attempt : Nat) (delays : List ℚ)
  | noAttempts (delays : List ℚ)

/-- The retry loop of `HttpFetcher.fetch` (fetcher.py lines 75-93):
`attempt` is the current loop index, `remaining` the iterations left
(`attempt + remaining = retries` at every call), `delays` the backoff sleeps
performed so far (reversed).  An exception on the final attempt
(`attempt >= retries - 1`, i.e. `remaining = 1`) propagates; any earlier
exception — `BlockedError` included — sleeps `backoffDelay` and retries. -/
def fetchGo (attempts : Nat → AttemptInput) (base cap : ℚ) :
    Nat → Nat → List ℚ → LoopOutcome
  | _, 0, delays => .noAttempts delays.reverse
  | attempt, remaining + 1, delays =>
    match classifyAttempt (attempts attempt) with
    | .retOk st body => .success st body attempt delays.reverse
    | .retNotMod => .notModified attempt delays.reverse
    | .raised k msg =>
      if remaining = 0 then .raised k msg attempt delays.reverse
      else fetchGo attempts base cap (attempt + 1) remaining (backoffDelay base cap attempt :: delays)

/-- `HttpFetcher.fetch` (fetcher.py lines 63-93) with the per-attempt
network outcome supplied as an oracle. -/
def httpFetch (retries : Nat) (attempts : Nat → AttemptInput) (base cap : ℚ) : LoopOutcome :=
  fetchGo attempts base cap 0 retries []

/-- One row of the sqlite cache (cache.py lines 14-24, read back by
`Cache.get`). -/
structure CacheRecord where
  url : String
  doc_id : Option String
  content_hash : Option String
  updated_at : Option String
  etag : Option String
  last_modified : Option String
  last_scraped : Option String
  status : Option String
  error : Option String
deriving Repr, DecidableEq

/-- The keyword arguments of one `Cache.upsert` call (cache.py lines 56-66):
`fields.get(...)` yields `None` for every key the caller did not pass. -/
structure UpsertPatch where
  doc_id : Option String := none
  content_hash : Option String := none
  updated_at : Option String := none
  etag : Option String := none
  last_modified : Option String := none
  last_scraped : Option String := none
  status : Option String := none
  error : Option String := none
deriving Repr, DecidableEq

/-- SQL `COALESCE(excluded.col, cache.col)` (cache.py lines 72-79): the new
value when non-NULL, else the stored one. -/
def coalesce (new old : Option String) : Option String :=
  match new with
  | some v => some v
  | none => old

/-- `Cache.upsert` (cache.py lines 53-83): an INSERT stores the patch as the
row (absent fields NULL); on conflict every column becomes
`COALESCE(excluded, cache)`. -/
def upsertMerge (url : String) (old : Option CacheRecord) (p : UpsertPatch) : CacheRecord :=
  match old with
  | none =>
    ⟨url, p.doc_id, p.content_hash, p.updated_at, p.etag, p.last_modified,
      p.last_scraped, p.status, p.error⟩
  | some o =>
    ⟨url, coalesce p.doc_id o.doc_id, coalesce p.content_hash o.content_hash,
      coalesce p.updated_at o.updated_at, coalesce p.etag o.etag,
      coalesce p.last_modified o.last_modified, coalesce p.last_scraped o.last_scraped,
      coalesce p.status o.status, coalesce p.error o.error⟩

/-- The counters of `ScrapeStats` (scraper.py lines 17-26) touched by
`process`, and the structured error records appended to `stats.errors`
(each is `(url, error, timestamp)`).  `total` is set once outside `process`
and omitted. -/
structure Stats where
  success : Nat := 0
  failed : Nat := 0
  skipped : Nat := 0
  updated : Nat := 0
  unchanged : Nat := 0
  auth_required : Nat := 0
  errors : List (String × String × String) := []
deriving Repr, DecidableEq

/-- The fields of an extracted article that `process` reads (scraper.py
lines 142-165); `scraped_at` is stamped by `process` itself. -/
structure ExtractedArticle where
  doc_id : String
  content_hash : String
  updated_at : Option String
  scraped_at : Option String := none
deriving Repr, DecidableEq

/-- The in-memory corpus `existing_articles` (scraper.py line 46): a dict
keyed by `doc_id`. -/
abbrev Corpus := List (String × ExtractedArticle)

/-- Python `doc_id in existing_articles`. -/
def corpusHas (corpus : Corpus) (d : String) : Bool :=
  corpus.any (fun kv => kv.1 == d)

/-- Python `existing_articles[doc_id] = article`: replace in place, else
append. -/
def corpusInsert (corpus : Corpus) (art : ExtractedArticle) : Corpus :=
  if corpusHas corpus art.doc_id then
    corpus.map (fun kv => if kv.1 == art.doc_id then (art.doc_id, art) else kv)
  else corpus ++ [(art.doc_id, art)]

/-- The response headers `process` reads on the success path (scraper.py
lines 160-161): `headers.get("etag")` and `headers.get("last-modified")`. -/
structure RespHeaders where
  etag : Option String := none
  last_modified : Option String := none
deriving Repr, DecidableEq

/-- The outcome of the plain-HTTP fetch as `process` observes it (scraper.py
lines 119-128): a 304 result, a result with (possibly empty or missing)
HTML, a `BlockedError` propagated out of the retry loop, or any other
fetch/transport error. -/
inductive HttpOutcome where
  | notModified (headers : RespHeaders)
  | ok (html : Option String) (headers : RespHeaders)
  | blocked (msg : String)
  | fetchErr (msg : String)

/-- The outcome of the rendered-browser fetch as `process` observes it
(scraper.py lines 110-115 and 129-134): HTML, or a `FetchError` (the
Playwright strategy raises nothing else; its `FetchResult.headers` is
always `None`). -/
inductive PwOutcome where
  | ok (html : Option String)
  | err (msg : String)

/-- Everything `process` (scraper.py lines 84-189) consumes for one URL:
the relevant configuration, the robots decision for the URL's host, the
oracle outcomes of the two fetch strategies, `extract_article` as a
function of the fetched HTML, and the wall-clock reading (all `now_iso()`
calls of one `process` run are modelled by the one value `now`). -/
structure ProcessEnv where
  url : String
  obey_robots : Bool
  parserAvailable : Bool
  robotsAllowed : Bool
  resume : Bool
  fetch_mode : String
  pw_available : Bool
  httpOutcome : HttpOutcome
  pwOutcome : PwOutcome
  extractFn : String → Except String ExtractedArticle
  now : String

/-- What one `process` run leaves behind: the stats, the cache row for the
URL (`none` when no row existed and no upsert ran), the corpus, and whether
each strategy / the extractor was invoked. -/
structure ProcessResult where
  stats : Stats
  cacheFinal : Option CacheRecord
  corpus : Corpus
  httpInvoked : Bool
  pwInvoked : Bool
  extractInvoked : Bool

/-- The robots guard of `process` (scraper.py lines 86-94): enforcement on,
a parser resolved for the host, and the URL disallowed. -/
def robotsBlocks (env : ProcessEnv) : Bool :=
  env.obey_robots && env.parserAvailable && !env.robotsAllowed

/-- `has_cached_article` (scraper.py line 100):
`bool(cached_doc_id and cached_doc_id in existing_articles)` — note the
Python truthiness: an empty-string `doc_id` never counts. -/
def hasCachedArticle (entry : Option CacheRecord) (corpus : Corpus) : Bool :=
  match entry.bind (fun e => e.doc_id) with
  | some d => d ≠ "" && corpusHas corpus d
  | none => false

/-- The resume guard of `process` (scraper.py line 101): `resume and
cache_entry and cache_entry.get("status") == "success" and
has_cached_article`. -/
def resumeSkips (env : ProcessEnv) (entry : Option CacheRecord) (corpus : Corpus) : Bool :=
  env.resume && entry.isSome && (entry.bind (fun e => e.status) == some "success")
    && hasCachedArticle entry corpus

/-- The `except ValueError` handler of `process` (scraper.py lines 166-176):
`stats.failed`, an error record, cache status `error` with the message. -/
def handleValueError (env : ProcessEnv) (stats : Stats) (entry : Option CacheRecord)
    (corpus : Corpus) (msg : String) (httpI pwI extractI : Bool) : ProcessResult :=
  { stats :=
      { stats with
          failed := stats.failed + 1
          errors := stats.errors ++ [(env.url, msg, env.now)] }
    cacheFinal := some (upsertMerge env.url entry
      { status := some "error", last_scraped := some env.now, error := some msg })
    corpus := corpus
    httpInvoked := httpI, pwInvoked := pwI, extractInvoked := extractI }

/-- The `except BlockedError` handler of `process` (scraper.py lines
177-183): `stats.failed` and `stats.auth_required`, an `auth_required`
error record, cache status `auth_required`. -/
def handleBlocked (env : ProcessEnv) (stats : Stats) (entry : Option CacheRecord)
    (corpus : Corpus) (httpI pwI extractI : Bool) : ProcessResult :=
  { stats :=
      { stats with
          failed := stats.failed + 1
          auth_required := stats.auth_required + 1
          errors := stats.errors ++ [(env.url, "auth_required", env.now)] }
    cacheFinal := some (upsertMerge env.url entry
      { status := some "auth_required", last_scraped := some env.now,
        error := some "auth_required" })
    corpus := corpus
    httpInvoked := httpI, pwInvoked := pwI, extractInvoked := extractI }

/-- The `except Exception` handler of `process` (scraper.py lines 184-189). -/
def handleGeneric (env : ProcessEnv) (stats : Stats) (entry : Option CacheRecord)
    (corpus : Corpus) (msg : String) (httpI pwI extractI : Bool) : ProcessResult :=
  { stats :=
      { stats with
          failed := stats.failed + 1
          errors := stats.errors ++ [(env.url, msg, env.now)] }
    cacheFinal := some (upsertMerge env.url entry
      { status := some "error", last_scraped := some env.now, error := some msg })
    corpus := corpus
    httpInvoked := httpI, pwInvoked := pwI, extractInvoked := extractI }

/-- Extraction and reconciliation of `process` (scraper.py lines 135-165):
empty HTML raises `FetchError`; a `ValueError` from `extract_article` goes
to its handler; otherwise the new hash is compared with the cached one
(Python truthiness: an empty cached hash counts as absent), the corpus and
stats updated, and the cache row upserted with the new provenance,
`status="success"` and `error=None`. -/
def afterFetch (env : ProcessEnv) (stats : Stats) (entry : Option CacheRecord)
    (corpus : Corpus) (html? : Option String) (hdrs : RespHeaders)
    (httpI pwI : Bool) : ProcessResult :=
  match html? with
  | none => handleGeneric env stats entry corpus "Empty HTML" httpI pwI false
  | some html =>
    if html = "" then handleGeneric env stats entry corpus "Empty HTML" httpI pwI false
    else
      match env.extractFn html with
      | .error msg => handleValueError env stats entry corpus msg httpI pwI true
      | .ok art0 =>
        let art := { art0 with scraped_at := some env.now }
        let cached_hash := entry.bind (fun e => e.content_hash)
        let hashUnchanged :=
          match cached_hash with
          | some h => h ≠ "" && h == art.content_hash
          | none => false
        let stats' :=
          if hashUnchanged then
            { stats with skipped := stats.skipped + 1, unchanged := stats.unchanged + 1 }
          else
            { stats with
                success := stats.success + 1
                updated := stats.updated +
                  (if cached_hash ≠ none ∧ cached_hash ≠ some "" then 1 else 0) }
        let corpus' :=
          if hashUnchanged then
            if corpusHas corpus art.doc_id then corpus else corpusInsert corpus art
          else corpusInsert corpus art
        { stats := stats'
          cacheFinal := some (upsertMerge env.url entry
            { doc_id := some art.doc_id
              content_hash := some art.content_hash
              updated_at := art.updated_at
              etag := hdrs.etag
              last_modified := hdrs.last_modified
              last_scraped := some env.now
              status := some "success"
              error := none })
          corpus := corpus'
          httpInvoked := httpI, pwInvoked := pwI, extractInvoked := true }

/-- `process` (scraper.py lines 84-189): robots check, resume check, fetch
(plain strategy with fallback to the rendered one on `BlockedError` in auto
mode, or the rendered one alone in forced mode), extract, reconcile, with
every exception converted to stats and a cache upsert. -/
def process (env : ProcessEnv) (stats : Stats) (entry : Option CacheRecord)
    (corpus : Corpus) : ProcessResult :=
  if robotsBlocks env then
    { stats := { stats with skipped := stats.skipped + 1 }
      cacheFinal := some (upsertMerge env.url entry
        { status := some "blocked", last_scraped := some env.now })
      corpus := corpus
      httpInvoked := false, pwInvoked := false, extractInvoked := false }
  else if resumeSkips env entry corpus then
    { stats := { stats with skipped := stats.skipped + 1 }
      cacheFinal := entry
      corpus := corpus
      httpInvoked := false, pwInvoked := false, extractInvoked := false }
  else if env.fetch_mode = "true" then
    if !env.pw_available then
      handleGeneric env stats entry corpus
        "Playwright fetch requested but Playwright is unavailable" false false false
    else
      match env.pwOutcome with
      | .err msg => handleGeneric env stats entry corpus msg false true false
      | .ok html => afterFetch env stats entry corpus html {} false true
  else
    match env.httpOutcome with
    | .notModified _ =>
      { stats :=
          { stats with skipped := stats.skipped + 1, unchanged := stats.unchanged + 1 }
        cacheFinal := some (upsertMerge env.url entry
          { status := some "success", last_scraped := some env.now })
        corpus := corpus
        httpInvoked := true, pwInvoked := false, extractInvoked := false }
    | .fetchErr msg => handleGeneric env stats entry corpus msg true false false
    | .blocked _ =>
      if env.fetch_mode = "false" || !env.pw_available then
        handleBlocked env stats entry corpus true false false
      else
        match env.pwOutcome with
        | .err msg => handleGeneric env stats entry corpus msg true true false
        | .ok html => afterFetch env stats entry corpus html {} true true
    | .ok html hdrs => afterFetch env stats entry corpus html hdrs true false

/-- Concrete article for the C1 counterexample: two short list blocks that
the merge pass glues together past `max_tokens`. -/
def artMerge : Article :=
  { doc_id := "d", url := "u", title := "T",
    body_markdown := "- aaaa.\n\n- bbbb.",
    updated_at := none, breadcrumbs := [], tags := [],
    scraped_at := none, content_hash := none }

/-- Concrete config for the C1 counterexample: `max_tokens = 2`,
`min_tokens = 5`. -/
def cfgMerge : ChunkCfg := { max_tokens := 2, min_tokens := 5 }

/-- A concrete extraction result used by the scraper scenarios. -/
def okArt : ExtractedArticle :=
  { doc_id := "support-clever:new", content_hash := "h-new", updated_at := none }

/-- A concrete environment: robots off, no resume, auto mode, plain-HTTP
fetch succeeding with fresh validators, extraction succeeding. -/
def envHttpOk : ProcessEnv :=
  { url := "https://support.example/s/article/a"
    obey_robots := false, parserAvailable := false, robotsAllowed := true
    resume := false, fetch_mode := "auto", pw_available := false
    httpOutcome := .ok (some "<html>") { etag := some "E2", last_modified := some "LM2" }
    pwOutcome := .err "no pw"
    extractFn := fun _ => .ok okArt
    now := "t1" }

/-- A prior cache record whose `doc_id` is the empty string (Python-falsy)
while its status claims success. -/
def entryEmptyDoc : CacheRecord :=
  { url := "https://support.example/s/article/a", doc_id := some ""
    content_hash := some "h-old", updated_at := none, etag := none
    last_modified := none, last_scraped := some "t0"
    status := some "success", error := none }

/-- A corpus that does contain the empty-string `doc_id` key. -/
def corpusEmptyDoc : Corpus :=
  [("", { doc_id := "", content_hash := "h0", updated_at := none })]

/-- A fully populated prior cache record with a stored error from an
earlier failed run. -/
def entryGood : CacheRecord :=
  { url := "https://support.example/s/article/a", doc_id := some "support-clever:abc"
    content_hash := some "h-old", updated_at := some "2024-01-01T00:00:00"
    etag := some "E", last_modified := some "LM", last_scraped := some "t0"
    status := some "success", error := some "old failure" }

/-- A corpus containing the article `entryGood` points at. -/
def corpusGood : Corpus :=
  [("support-clever:abc",
    { doc_id := "support-clever:abc", content_hash := "h-old", updated_at := none })]

/-- `envHttpOk` with robots enforcement on and the URL disallowed. -/
def envRobots : ProcessEnv :=
  { envHttpOk with obey_robots := true, parserAvailable := true, robotsAllowed := false }

/-- The first pre-merge chunk of the concrete article `artMerge` (the
fallback argument of `headD` is never used: the list is nonempty). -/
def chunkZero : Chunk :=
  (premergeChunks artMerge cfgMerge).headD (build_chunk artMerge ⟨["T"], "T", ""⟩ "x" 0)

theorem estimate_le_of_length_le {s t : String} (h : s.data.length ≤ t.data.length) :
    estimate_tokens s ≤ estimate_tokens t := by
  unfold estimate_tokens
  cases hs : s.data with
  | nil => simp
  | cons c cs =>
    cases ht : t.data with
    | nil =>
      exfalso
      rw [hs, ht] at h
      simp at h
    | cons d ds =>
      rw [hs, ht] at h
      simp only [List.isEmpty_cons, Bool.false_eq_true, if_false]
      exact max_le_max (le_refl 1) (Nat.div_le_div_right h)

theorem replCRLF_length_le : ∀ cs : List Char, (replCRLF cs).length ≤ cs.length := by
  intro cs
  induction cs using replCRLF.induct with
  | case1 rest ih =>
    simp only [replCRLF, List.length_cons]
    omega
  | case2 c rest hne ih =>
    simp only [replCRLF, List.length_cons]
    omega
  | case3 => simp [replCRLF]

theorem cstAux_length_le : ∀ (b : Bool) (cs : List Char), (cstAux b cs).length ≤ cs.length := by
  intro b cs
  induction cs generalizing b with
  | nil => simp [cstAux]
  | cons c rest ih =>
    by_cases h : isSpaceTab c = true
    · cases b with
      | true =>
        simp only [cstAux, h, if_true]
        exact (ih true).trans (by simp)
      | false =>
        simp only [cstAux, h, if_true, List.length_cons]
        have := ih true
        simpa using this
    · simp only [cstAux, h, Bool.false_eq_true, if_false, List.length_cons]
      have := ih false
      omega

theorem cnlAux_length_le : ∀ (n : Nat) (cs : List Char),
    (cnlAux n cs).length ≤ n + cs.length := by
  intro n cs
  induction cs generalizing n with
  | nil =>
    simp only [cnlAux, List.length_replicate]
    split <;> omega
  | cons c rest ih =>
    by_cases h : c = '\n'
    · subst h
      simp only [cnlAux, List.length_cons]
      have := ih (n + 1)
      omega
    · rw [show cnlAux n (c :: rest) =
          List.replicate (if 3 ≤ n then 2 else n) '\n' ++ c :: cnlAux 0 rest from by
        cases rest <;> simp [cnlAux, h]]
      simp only [List.length_append, List.length_replicate, List.length_cons]
      have := ih 0
      split <;> omega

theorem dropWhile_length_le' {p : Char → Bool} : ∀ l : List Char, (l.dropWhile p).length ≤ l.length := by
  intro l
  induction l with
  | nil => simp
  | cons c rest ih =>
    by_cases h : p c = true
    · rw [List.dropWhile_cons_of_pos h]
      simp only [List.length_cons]
      omega
    · rw [List.dropWhile_cons_of_neg h]

theorem stripChars_length_le (cs : List Char) : (stripChars cs).length ≤ cs.length := by
  unfold stripChars
  calc ((cs.dropWhile isPySpace).reverse.dropWhile isPySpace).reverse.length
      = ((cs.dropWhile isPySpace).reverse.dropWhile isPySpace).length := by
        exact List.length_reverse _
    _ ≤ (cs.dropWhile isPySpace).reverse.length := dropWhile_length_le' _
    _ = (cs.dropWhile isPySpace).length := List.length_reverse _
    _ ≤ cs.length := dropWhile_length_le' _

theorem normalize_length_le (s : String) :
    (normalize_whitespace s).data.length ≤ s.data.length := by
  show (stripChars (cnlAux 0 (cstAux false (replCRLF s.data)))).length ≤ s.data.length
  calc (stripChars (cnlAux 0 (cstAux false (replCRLF s.data)))).length
      ≤ (cnlAux 0 (cstAux false (replCRLF s.data))).length := stripChars_length_le _
    _ ≤ 0 + (cstAux false (replCRLF s.data)).length := cnlAux_length_le _ _
    _ ≤ (replCRLF s.data).length := by
        have := cstAux_length_le false (replCRLF s.data)
        omega
    _ ≤ s.data.length := replCRLF_length_le _

theorem estimate_normalize_le (s : String) :
    estimate_tokens (normalize_whitespace s) ≤ estimate_tokens s :=
  estimate_le_of_length_le (normalize_length_le s)

theorem pyStrip_length_le (s : String) : (pyStrip s).data.length ≤ s.data.length :=
  stripChars_length_le s.data

theorem estimate_pyStrip_le (s : String) :
    estimate_tokens (pyStrip s) ≤ estimate_tokens s :=
  estimate_le_of_length_le (pyStrip_length_le s)

theorem estimate_normalize_pyStrip_le (s : String) :
    estimate_tokens (normalize_whitespace (pyStrip s)) ≤ estimate_tokens s :=
  le_trans (estimate_normalize_le (pyStrip s)) (estimate_pyStrip_le s)

/-- C9 counterexample: the claim says `estimate_tokens(s) = max(1,
floor(len(s)/4))` for every `s`, the empty string included, but the code
returns `0` for the empty string (`if not text: return 0`, utils.py line
111). -/
theorem c9_counterexample : estimate_tokens "" ≠ max 1 (String.length "" / 4) := by
  decide

/-- C9 (amended): `estimate_tokens` returns `0` for the empty string and
`max(1, floor(char_length/4))` — hence at least 1 — for every other
string. -/
theorem c9_estimate_tokens (s : String) :
    estimate_tokens s = if s = "" then 0 else max 1 (String.length s / 4) := by
  unfold estimate_tokens
  cases s with
  | mk l =>
    cases l with
    | nil => decide
    | cons c cs =>
      have h1 : (String.mk (c :: cs)).data.isEmpty = false := rfl
      have hne : ¬(String.mk (c :: cs) = "") := by
        intro h
        have := congrArg String.data h
        simp at this
      rw [h1, if_neg hne]
      simp [String.length]

/-- Splitting a separator-free prefix off both sides of a list equation:
if neither `a` nor `b` contains `'|'` then `a ++ '|' :: x = b ++ '|' :: y`
forces `a = b` and `x = y`. -/
theorem append_sep_inj : ∀ (a b x y : List Char), '|' ∉ a → '|' ∉ b →
    a ++ '|' :: x = b ++ '|' :: y → a = b ∧ x = y := by
  intro a
  induction a with
  | nil =>
    intro b x y _ hb h
    cases b with
    | nil => simpa using h
    | cons c bs =>
      exfalso
      simp only [List.nil_append, List.cons_append, List.cons.injEq] at h
      exact hb (h.1 ▸ List.mem_cons_self c bs)
  | cons c as ih =>
    intro b x y ha hb h
    cases b with
    | nil =>
      exfalso
      simp only [List.cons_append, List.nil_append, List.cons.injEq] at h
      exact ha (h.1.symm ▸ List.mem_cons_self c as)
    | cons d bs =>
      simp only [List.cons_append, List.cons.injEq] at h
      obtain ⟨hcd, hrest⟩ := h
      have ha' : '|' ∉ as := fun m => ha (List.mem_cons_of_mem c m)
      have hb' : '|' ∉ bs := fun m => hb (List.mem_cons_of_mem d m)
      obtain ⟨h1, h2⟩ := ih bs x y ha' hb' hrest
      exact ⟨by rw [hcd, h1], h2⟩

/-- C3 counterexample: two distinct `(title, updated_at or "", markdown)`
triples whose `content_hash` pre-image strings (extractor.py line 230)
coincide, because the `"|"` separator also occurs in the fields: `("a|b",
"", "c")` and `("a", "b", "|c")` both hash `"a|b||c"`. -/
theorem c3_counterexample :
    contentHashInput "a|b" none "c" = contentHashInput "a" (some "b") "|c" ∧
      ¬("a|b" = "a" ∧ (none : Option String).getD "" = (some "b").getD "" ∧ "c" = "|c") := by
  constructor
  · rfl
  · intro h
    exact absurd h.1 (by decide)

/-- C3 (amended): equal triples always give equal hash pre-images; the
converse holds whenever neither title nor updated value contains the `'|'`
separator (ISO-8601 timestamps never do, titles can). -/
theorem c3_content_hash (t t' m m' : String) (u u' : Option String)
    (ht : '|' ∉ t.data) (ht' : '|' ∉ t'.data)
    (hu : '|' ∉ (u.getD "").data) (hu' : '|' ∉ (u'.getD "").data) :
    contentHashInput t u m = contentHashInput t' u' m' ↔
      (t = t' ∧ u.getD "" = u'.getD "" ∧ m = m') := by
  constructor
  · intro h
    have hd := congrArg String.data h
    have hshape : ∀ (a : String) (v : Option String) (b : String),
        (contentHashInput a v b).data = a.data ++ '|' :: ((v.getD "").data ++ '|' :: b.data) := by
      intro a v b
      have hp : ("|" : String).data = ['|'] := rfl
      show (a ++ "|" ++ v.getD "" ++ "|" ++ b).data = _
      simp only [String.data_append, hp, List.append_assoc, List.singleton_append,
        List.cons_append, List.nil_append]
    rw [hshape, hshape] at hd
    obtain ⟨e1, e2⟩ := append_sep_inj t.data t'.data _ _ ht ht' hd
    obtain ⟨e3, e4⟩ := append_sep_inj _ _ _ _ hu hu' e2
    refine ⟨String.ext e1, String.ext e3, String.ext e4⟩
  · intro ⟨h1, h2, h3⟩
    unfold contentHashInput
    rw [h1, h2, h3]

/-- Witness for the amended C3 theorem at a concrete extraction-shaped
triple: a pipe-free title and ISO timestamp. -/
theorem c3_content_hash_witness :
    ('|' ∉ ("How to Reset" : String).data) ∧
      (contentHashInput "How to Reset" (some "2025-01-01T10:00:00") "body" =
          contentHashInput "How to Reset" (some "2025-01-01T10:00:00") "body" ↔
        ("How to Reset" : String) = "How to Reset" ∧
          (some "2025-01-01T10:00:00" : Option String).getD "" =
            (some "2025-01-01T10:00:00" : Option String).getD "" ∧
          ("body" : String) = "body") :=
  ⟨by decide,
    c3_content_hash "How to Reset" "How to Reset" "body" "body"
      (some "2025-01-01T10:00:00") (some "2025-01-01T10:00:00")
      (by decide) (by decide) (by decide) (by decide)⟩

/-- C8 counterexample: the converter maps every heading level by a fixed
table (normalizer.py lines 12-22), so a body whose outermost heading is an
`h3` yields a level-3 markdown heading, not `##`; and `h1` and `h2` collapse
to the same output level, so strict nesting between them is not preserved. -/
theorem c8_counterexample :
    mdHeadingLevel 3 ≠ 2 ∧ 1 ≤ 3 ∧ 3 ≤ 4 ∧ mdHeadingLevel 1 = mdHeadingLevel 2 := by
  constructor
  · decide
  · exact ⟨by decide, by decide, by decide⟩

/-- C8 (amended): `ArticleMarkdownConverter` maps `h1` and `h2` to `##`,
`h3` to `###` and `h4` to `####`; hence the outermost heading becomes `##`
exactly when it is an `h1` or `h2`, the mapping is monotone, and it is
strictly monotone from level 2 on. -/
theorem c8_heading_levels (n : Nat) (h1 : 1 ≤ n) (h4 : n ≤ 4) :
    (mdHeadingLevel n = 2 ↔ n ≤ 2) ∧
      (∀ m, n ≤ m → m ≤ 4 → mdHeadingLevel n ≤ mdHeadingLevel m) ∧
      (∀ m, 2 ≤ n → n < m → m ≤ 4 → mdHeadingLevel n < mdHeadingLevel m) := by
  refine ⟨?_, ?_, ?_⟩
  · interval_cases n <;> simp [mdHeadingLevel, convertHeading]
  · intro m hnm hm4
    interval_cases n <;> interval_cases m <;> decide
  · intro m h2n hnm hm4
    interval_cases n <;> interval_cases m <;> decide

/-- Witness for the amended C8 theorem at the concrete level 3. -/
theorem c8_heading_levels_witness :
    1 ≤ 3 ∧ 3 ≤ 4 ∧
      ((mdHeadingLevel 3 = 2 ↔ 3 ≤ 2) ∧
        (∀ m, 3 ≤ m → m ≤ 4 → mdHeadingLevel 3 ≤ mdHeadingLevel m) ∧
        (∀ m, 2 ≤ 3 → 3 < m → m ≤ 4 → mdHeadingLevel 3 < mdHeadingLevel m)) :=
  ⟨by decide, by decide, c8_heading_levels 3 (by decide) (by decide)⟩

theorem reindexFrom_length (d : String) : ∀ (i : Nat) (l : List Chunk),
    (reindexFrom d i l).length = l.length := by
  intro i l
  induction l generalizing i with
  | nil => simp [reindexFrom]
  | cons c rest ih =>
    simp only [reindexFrom, List.length_cons]
    rw [ih]

theorem reindexFrom_map_chunk_id (d : String) : ∀ (l : List Chunk) (i : Nat),
    (reindexFrom d i l).map (fun c => c.chunk_id) =
      (List.range l.length).map (fun k => d ++ "#" ++ toString (i + k)) := by
  intro l
  induction l with
  | nil => simp [reindexFrom]
  | cons c rest ih =>
    intro i
    simp only [reindexFrom, List.map_cons, List.length_cons, List.range_succ_eq_map,
      List.map_map, ih (i + 1)]
    refine List.cons_eq_cons.mpr ⟨by rw [Nat.add_zero], ?_⟩
    apply List.map_congr_left
    intro k _
    simp only [Function.comp_apply, Nat.succ_eq_add_one]
    rw [show i + 1 + k = i + (k + 1) from by omega]

/-- C2: after the merge pass `chunk_article` re-numbers the surviving chunks
(chunker.py lines 177-179), so the chunk ids of the returned sequence are
exactly `doc_id#0 … doc_id#(N-1)` in order, with no gaps, for every article
and config. -/
theorem c2_chunk_ids (a : Article) (cfg : ChunkCfg) :
    (chunk_article a cfg).map (fun c => c.chunk_id) =
      (List.range (chunk_article a cfg).length).map (fun k => a.doc_id ++ "#" ++ toString k) := by
  unfold chunk_article
  rw [reindexFrom_map_chunk_id, reindexFrom_length]
  apply List.map_congr_left
  intro k _
  rw [Nat.zero_add]

theorem afterFetch_flags (env : ProcessEnv) (stats : Stats) (entry : Option CacheRecord)
    (corpus : Corpus) (html? : Option String) (hdrs : RespHeaders) (hi pi : Bool) :
    (afterFetch env stats entry corpus html? hdrs hi pi).httpInvoked = hi ∧
      (afterFetch env stats entry corpus html? hdrs hi pi).pwInvoked = pi := by
  unfold afterFetch
  cases html? with
  | none => exact ⟨rfl, rfl⟩
  | some h =>
    by_cases hh : h = ""
    · simp only [hh, if_pos]
      exact ⟨rfl, rfl⟩
    · simp only [if_neg hh]
      cases env.extractFn h with
      | error msg => exact ⟨rfl, rfl⟩
      | ok art => exact ⟨rfl, rfl⟩

theorem resumeSkips_iff (env : ProcessEnv) (entry : Option CacheRecord) (corpus : Corpus)
    (hres : env.resume = true) :
    resumeSkips env entry corpus = true ↔
      ∃ e, entry = some e ∧ e.status = some "success" ∧
        ∃ d, e.doc_id = some d ∧ d ≠ "" ∧ corpusHas corpus d = true := by
  unfold resumeSkips hasCachedArticle
  cases entry with
  | none => simp [hres]
  | some e =>
    cases hd : e.doc_id with
    | none => simp [hres, hd]
    | some d =>
      simp only [hres, Option.isSome_some, Bool.true_and, Bool.and_eq_true, beq_iff_eq,
        decide_eq_true_eq, Option.some_bind, hd]
      constructor
      · intro h
        exact ⟨e, rfl, h.1, d, hd, h.2.1, h.2.2⟩
      · intro h
        obtain ⟨e', he', h1, d', hd', h2, h3⟩ := h
        cases he'
        rw [hd] at hd'
        cases hd'
        exact ⟨h1, h2, h3⟩

/-- C4 counterexample: with resume on, a cache record with
`status="success"` whose `doc_id` is the empty string, and a corpus that
does contain the empty-string key, the claim's condition holds — yet
`process` does not skip: Python's `bool(cached_doc_id and ...)` treats the
empty string as false (scraper.py line 100), so the URL is fetched. -/
theorem c4_counterexample :
    ({ envHttpOk with resume := true } : ProcessEnv).resume = true ∧
      entryEmptyDoc.status = some "success" ∧
      entryEmptyDoc.doc_id = some "" ∧
      corpusHas corpusEmptyDoc "" = true ∧
      (process { envHttpOk with resume := true } {} (some entryEmptyDoc) corpusEmptyDoc).httpInvoked
        = true ∧
      (process { envHttpOk with resume := true } {} (some entryEmptyDoc) corpusEmptyDoc).stats.skipped
        = 0 := by
  refine ⟨rfl, rfl, rfl, rfl, rfl, rfl⟩

/-- C4 (amended): once the robots guard has passed, and with resume on, the
orchestrator skips the URL with no fetch of either strategy (and counts one
skip) exactly when a prior cache record exists with `status="success"`
whose `doc_id` is a non-empty string present in the loaded corpus
(scraper.py lines 98-103). -/
theorem c4_resume_guard (env : ProcessEnv) (stats : Stats) (entry : Option CacheRecord)
    (corpus : Corpus) (hrob : robotsBlocks env = false) (hres : env.resume = true) :
    ((process env stats entry corpus).httpInvoked = false ∧
      (process env stats entry corpus).pwInvoked = false ∧
      (process env stats entry corpus).stats.skipped = stats.skipped + 1) ↔
      (∃ e, entry = some e ∧ e.status = some "success" ∧
        ∃ d, e.doc_id = some d ∧ d ≠ "" ∧ corpusHas corpus d = true) := by
  rw [← resumeSkips_iff env entry corpus hres]
  unfold process
  rw [hrob]
  simp only [Bool.false_eq_true, if_false]
  by_cases hskip : resumeSkips env entry corpus = true
  · simp only [hskip, if_true]
    simp
  · simp only [hskip, Bool.false_eq_true, if_false]
    constructor
    · intro h
      obtain ⟨h1, h2, h3⟩ := h
      exfalso
      by_cases hmode : env.fetch_mode = "true"
      · rw [if_pos hmode] at h1 h2 h3
        by_cases hpw : env.pw_available = true
        · simp only [hpw, Bool.not_true, Bool.false_eq_true, if_false] at h1 h2 h3
          cases hout : env.pwOutcome with
          | err msg =>
            rw [hout] at h3
            change stats.skipped = stats.skipped + 1 at h3
            omega
          | ok html =>
            rw [hout] at h2
            rw [(afterFetch_flags env stats entry corpus html {} false true).2] at h2
            exact Bool.noConfusion h2
        · have hpw' : env.pw_available = false := by
            cases h : env.pw_available
            · rfl
            · exact absurd h hpw
          simp only [hpw', Bool.not_false, if_true] at h3
          change stats.skipped = stats.skipped + 1 at h3
          omega
      · rw [if_neg hmode] at h1 h2 h3
        cases hout : env.httpOutcome with
        | notModified hdr =>
          rw [hout] at h1
          change true = false at h1
          exact Bool.noConfusion h1
        | fetchErr msg =>
          rw [hout] at h1
          change true = false at h1
          exact Bool.noConfusion h1
        | blocked msg =>
          rw [hout] at h1
          by_cases hfb : (env.fetch_mode = "false" || !env.pw_available) = true
          · rw [if_pos hfb] at h1
            change true = false at h1
            exact Bool.noConfusion h1
          · rw [if_neg hfb] at h1
            cases hout2 : env.pwOutcome with
            | err m2 =>
              rw [hout2] at h1
              change true = false at h1
              exact Bool.noConfusion h1
            | ok html =>
              rw [hout2] at h1
              rw [(afterFetch_flags env stats entry corpus html {} true true).1] at h1
              exact Bool.noConfusion h1
        | ok html hdr =>
          rw [hout] at h1
          rw [(afterFetch_flags env stats entry corpus html hdr true false).1] at h1
          exact Bool.noConfusion h1
    · intro h
      exact h.elim

/-- Witness for the amended C4 theorem: a success record with a non-empty
`doc_id` present in the corpus is skipped with no fetch. -/
theorem c4_resume_guard_witness :
    robotsBlocks { envHttpOk with resume := true } = false ∧
      ({ envHttpOk with resume := true } : ProcessEnv).resume = true ∧
      (((process { envHttpOk with resume := true } {} (some entryGood) corpusGood).httpInvoked = false ∧
        (process { envHttpOk with resume := true } {} (some entryGood) corpusGood).pwInvoked = false ∧
        (process { envHttpOk with resume := true } {} (some entryGood) corpusGood).stats.skipped
          = Stats.skipped {} + 1) ↔
        (∃ e, (some entryGood : Option CacheRecord) = some e ∧ e.status = some "success" ∧
          ∃ d, e.doc_id = some d ∧ d ≠ "" ∧ corpusHas corpusGood d = true)) :=
  ⟨rfl, rfl,
    c4_resume_guard { envHttpOk with resume := true } {} (some entryGood) corpusGood rfl rfl⟩

/-- C5: a plain-HTTP 304 (scraper.py lines 120-124) adds exactly one to
`stats.skipped` and one to `stats.unchanged`, changes no other counter,
never invokes the extractor, and upserts only `status` and `last_scraped`;
by the COALESCE merge of `Cache.upsert` every other stored field of the
record keeps its previous value. -/
theorem c5_not_modified (env : ProcessEnv) (stats : Stats) (entry : Option CacheRecord)
    (corpus : Corpus) (hdrs : RespHeaders)
    (hrob : robotsBlocks env = false) (hskip : resumeSkips env entry corpus = false)
    (hmode : ¬env.fetch_mode = "true") (h304 : env.httpOutcome = .notModified hdrs) :
    (process env stats entry corpus).stats.skipped = stats.skipped + 1 ∧
      (process env stats entry corpus).stats.unchanged = stats.unchanged + 1 ∧
      (process env stats entry corpus).stats.success = stats.success ∧
      (process env stats entry corpus).stats.failed = stats.failed ∧
      (process env stats entry corpus).stats.updated = stats.updated ∧
      (process env stats entry corpus).stats.auth_required = stats.auth_required ∧
      (process env stats entry corpus).stats.errors = stats.errors ∧
      (process env stats entry corpus).extractInvoked = false ∧
      (process env stats entry corpus).cacheFinal =
        some (upsertMerge env.url entry
          { status := some "success", last_scraped := some env.now }) ∧
      (∀ o, entry = some o →
        (upsertMerge env.url entry
            { status := some "success", last_scraped := some env.now }).doc_id = o.doc_id ∧
          (upsertMerge env.url entry
            { status := some "success", last_scraped := some env.now }).content_hash
              = o.content_hash ∧
          (upsertMerge env.url entry
            { status := some "success", last_scraped := some env.now }).updated_at
              = o.updated_at ∧
          (upsertMerge env.url entry
            { status := some "success", last_scraped := some env.now }).etag = o.etag ∧
          (upsertMerge env.url entry
            { status := some "success", last_scraped := some env.now }).last_modified
              = o.last_modified ∧
          (upsertMerge env.url entry
            { status := some "success", last_scraped := some env.now }).error = o.error) := by
  have hP : process env stats entry corpus =
      { stats :=
          { stats with skipped := stats.skipped + 1, unchanged := stats.unchanged + 1 }
        cacheFinal := some (upsertMerge env.url entry
          { status := some "success", last_scraped := some env.now })
        corpus := corpus
        httpInvoked := true, pwInvoked := false, extractInvoked := false } := by
    unfold process
    rw [hrob, hskip]
    simp only [Bool.false_eq_true, if_false, if_neg hmode, h304]
  rw [hP]
  refine ⟨rfl, rfl, rfl, rfl, rfl, rfl, rfl, rfl, rfl, ?_⟩
  intro o ho
  subst ho
  exact ⟨rfl, rfl, rfl, rfl, rfl, rfl⟩

/-- Witness for the C5 theorem: concrete 304 outcome over the populated
prior record `entryGood`. -/
theorem c5_not_modified_witness :
    robotsBlocks { envHttpOk with httpOutcome := .notModified {} } = false ∧
      resumeSkips { envHttpOk with httpOutcome := .notModified {} } (some entryGood) [] = false ∧
      ¬({ envHttpOk with httpOutcome := .notModified {} } : ProcessEnv).fetch_mode = "true" ∧
      (process { envHttpOk with httpOutcome := .notModified {} } {} (some entryGood) []).stats.skipped
        = Stats.skipped {} + 1 ∧
      (upsertMerge ({ envHttpOk with httpOutcome := .notModified {} } : ProcessEnv).url
          (some entryGood)
          { status := some "success",
            last_scraped := some ({ envHttpOk with httpOutcome := .notModified {} } : ProcessEnv).now }).etag
        = entryGood.etag := by
  refine ⟨rfl, rfl, by decide, ?_, ?_⟩
  · exact (c5_not_modified { envHttpOk with httpOutcome := .notModified {} } {}
      (some entryGood) [] {} rfl rfl (by decide) rfl).1
  · exact ((c5_not_modified { envHttpOk with httpOutcome := .notModified {} } {}
      (some entryGood) [] {} rfl rfl (by decide) rfl).2.2.2.2.2.2.2.2.2 entryGood rfl).2.2.2.1

/-- C6: with robots enforcement on and the URL disallowed by the host's
resolved policy (scraper.py lines 86-97), no fetch strategy and no
extraction runs, `stats.skipped` gains exactly one (no other counter
changes), and the cache record is upserted with status `blocked`. -/
theorem c6_robots_blocked (env : ProcessEnv) (stats : Stats) (entry : Option CacheRecord)
    (corpus : Corpus) (h1 : env.obey_robots = true) (h2 : env.parserAvailable = true)
    (h3 : env.robotsAllowed = false) :
    (process env stats entry corpus).httpInvoked = false ∧
      (process env stats entry corpus).pwInvoked = false ∧
      (process env stats entry corpus).extractInvoked = false ∧
      (process env stats entry corpus).stats.skipped = stats.skipped + 1 ∧
      (process env stats entry corpus).stats.success = stats.success ∧
      (process env stats entry corpus).stats.failed = stats.failed ∧
      (process env stats entry corpus).stats.updated = stats.updated ∧
      (process env stats entry corpus).stats.unchanged = stats.unchanged ∧
      (process env stats entry corpus).stats.auth_required = stats.auth_required ∧
      (process env stats entry corpus).stats.errors = stats.errors ∧
      (process env stats entry corpus).cacheFinal =
        some (upsertMerge env.url entry
          { status := some "blocked", last_scraped := some env.now }) ∧
      (upsertMerge env.url entry
        { status := some "blocked", last_scraped := some env.now }).status = some "blocked" := by
  have hrb : robotsBlocks env = true := by
    unfold robotsBlocks
    rw [h1, h2, h3]
    rfl
  have hP : process env stats entry corpus =
      { stats := { stats with skipped := stats.skipped + 1 }
        cacheFinal := some (upsertMerge env.url entry
          { status := some "blocked", last_scraped := some env.now })
        corpus := corpus
        httpInvoked := false, pwInvoked := false, extractInvoked := false } := by
    unfold process
    rw [hrb]
    simp only [if_true]
  rw [hP]
  refine ⟨rfl, rfl, rfl, rfl, rfl, rfl, rfl, rfl, rfl, rfl, rfl, ?_⟩
  cases entry with
  | none => rfl
  | some o => rfl

/-- Witness for the C6 theorem at a concrete disallowed URL. -/
theorem c6_robots_blocked_witness :
    envRobots.obey_robots = true ∧
      (process envRobots {} (some entryGood) []).httpInvoked = false ∧
      (process envRobots {} (some entryGood) []).stats.skipped = Stats.skipped {} + 1 :=
  have h := c6_robots_blocked envRobots {} (some entryGood) [] rfl rfl rfl
  ⟨rfl, h.1, h.2.2.2.1⟩

/-- C7 counterexample: a successful fetch-extract-reconcile over a prior
record that carries `error="old failure"` stores `status="success"` but
keeps the old error message — the success-path upsert passes `error=None`
(scraper.py line 164) and `COALESCE(excluded.error, cache.error)` preserves
the stored value (cache.py line 79); the error is not cleared. -/
theorem c7_counterexample :
    entryGood.error = some "old failure" ∧
      (process envHttpOk {} (some entryGood) []).cacheFinal.map (fun m => m.status)
        = some (some "success") ∧
      (process envHttpOk {} (some entryGood) []).cacheFinal.map (fun m => m.error)
        = some (some "old failure") :=
  ⟨rfl, rfl, rfl⟩

/-- C7 (amended): after a successful fetch-extract-reconcile the stored
record has `status="success"`; but because the upsert coalesces the
`error=None` it passes with the stored value, a previously recorded error
is preserved, not cleared (and only when no prior record existed is the
stored error NULL). -/
theorem c7_success_upsert (env : ProcessEnv) (stats : Stats) (entry : Option CacheRecord)
    (corpus : Corpus) (h : String) (hdrs : RespHeaders) (art : ExtractedArticle)
    (hrob : robotsBlocks env = false) (hskip : resumeSkips env entry corpus = false)
    (hmode : ¬env.fetch_mode = "true") (hok : env.httpOutcome = .ok (some h) hdrs)
    (hne : ¬h = "") (hex : env.extractFn h = .ok art) :
    ∃ m, (process env stats entry corpus).cacheFinal = some m ∧
      m.status = some "success" ∧
      (∀ o, entry = some o → m.error = o.error) ∧
      (entry = none → m.error = none) := by
  have hP : process env stats entry corpus =
      afterFetch env stats entry corpus (some h) hdrs true false := by
    unfold process
    rw [hrob, hskip]
    simp only [Bool.false_eq_true, if_false, if_neg hmode, hok]
  refine ⟨upsertMerge env.url entry
      { doc_id := some art.doc_id
        content_hash := some art.content_hash
        updated_at := art.updated_at
        etag := hdrs.etag
        last_modified := hdrs.last_modified
        last_scraped := some env.now
        status := some "success"
        error := none }, ?_, ?_, ?_, ?_⟩
  · rw [hP]
    unfold afterFetch
    simp only [if_neg hne, hex]
  · cases entry with
    | none => rfl
    | some o => rfl
  · intro o ho
    subst ho
    rfl
  · intro ho
    subst ho
    rfl

/-- Witness for the amended C7 theorem at the concrete success scenario
over `entryGood`. -/
theorem c7_success_upsert_witness :
    robotsBlocks envHttpOk = false ∧ envHttpOk.extractFn "<html>" = .ok okArt ∧
      (∃ m, (process envHttpOk {} (some entryGood) []).cacheFinal = some m ∧
        m.status = some "success" ∧
        (∀ o, (some entryGood : Option CacheRecord) = some o → m.error = o.error) ∧
        ((some entryGood : Option CacheRecord) = none → m.error = none)) :=
  ⟨rfl, rfl,
    c7_success_upsert envHttpOk {} (some entryGood) [] "<html>"
      { etag := some "E2", last_modified := some "LM2" } okArt rfl rfl (by decide) rfl
      (by decide) rfl⟩

theorem fetchGo_spec (attempts : Nat → AttemptInput) (base cap : ℚ) :
    ∀ (remaining attempt : Nat) (acc : List ℚ),
      acc.reverse = (List.range attempt).map (backoffDelay base cap) →
      (∀ j, j < attempt → ∃ k' m', classifyAttempt (attempts j) = .raised k' m') →
      ((∀ k msg a d, fetchGo attempts base cap attempt remaining acc = .raised k msg a d →
          a = attempt + remaining - 1 ∧ classifyAttempt (attempts a) = .raised k msg ∧
          d = (List.range a).map (backoffDelay base cap) ∧
          ∀ j, j < a → ∃ k' m', classifyAttempt (attempts j) = .raised k' m') ∧
        (∀ st b a d, fetchGo attempts base cap attempt remaining acc = .success st b a d →
          classifyAttempt (attempts a) = .retOk st b ∧ a < attempt + remaining ∧
          d = (List.range a).map (backoffDelay base cap) ∧
          ∀ j, j < a → ∃ k' m', classifyAttempt (attempts j) = .raised k' m')) := by
  intro remaining
  induction remaining with
  | zero =>
    intro attempt acc hacc hprior
    constructor
    · intro k msg a d hEq
      exact LoopOutcome.noConfusion hEq
    · intro st b a d hEq
      exact LoopOutcome.noConfusion hEq
  | succ rem ih =>
    intro attempt acc hacc hprior
    cases hc : classifyAttempt (attempts attempt) with
    | retOk st0 b0 =>
      have hF : fetchGo attempts base cap attempt (rem + 1) acc
          = .success st0 b0 attempt acc.reverse := by
        simp only [fetchGo]
        rw [hc]
      constructor
      · intro k msg a d hEq
        rw [hF] at hEq
        exact LoopOutcome.noConfusion hEq
      · intro st b a d hEq
        rw [hF] at hEq
        injection hEq with h1 h2 h3 h4
        subst h1; subst h2; subst h3; subst h4
        refine ⟨hc, by omega, hacc, hprior⟩
    | retNotMod =>
      have hF : fetchGo attempts base cap attempt (rem + 1) acc
          = .notModified attempt acc.reverse := by
        simp only [fetchGo]
        rw [hc]
      constructor
      · intro k msg a d hEq
        rw [hF] at hEq
        exact LoopOutcome.noConfusion hEq
      · intro st b a d hEq
        rw [hF] at hEq
        exact LoopOutcome.noConfusion hEq
    | raised k0 m0 =>
      cases rem with
      | zero =>
        have hF : fetchGo attempts base cap attempt 1 acc
            = .raised k0 m0 attempt acc.reverse := by
          simp only [fetchGo]
          rw [hc]
          simp
        constructor
        · intro k msg a d hEq
          rw [hF] at hEq
          injection hEq with h1 h2 h3 h4
          subst h1; subst h2; subst h3; subst h4
          refine ⟨by omega, hc, hacc, hprior⟩
        · intro st b a d hEq
          rw [hF] at hEq
          exact LoopOutcome.noConfusion hEq
      | succ rem' =>
        have hF : fetchGo attempts base cap attempt (rem' + 1 + 1) acc
            = fetchGo attempts base cap (attempt + 1) (rem' + 1)
                (backoffDelay base cap attempt :: acc) := by
          simp only [fetchGo]
          rw [hc]
          simp
        have hacc' : (backoffDelay base cap attempt :: acc).reverse
            = (List.range (attempt + 1)).map (backoffDelay base cap) := by
          rw [List.reverse_cons, hacc, List.range_succ, List.map_append]
          rfl
        have hprior' : ∀ j, j < attempt + 1 →
            ∃ k' m', classifyAttempt (attempts j) = .raised k' m' := by
          intro j hj
          by_cases hje : j = attempt
          · subst hje
            exact ⟨k0, m0, hc⟩
          · exact hprior j (by omega)
        have hrec := ih (attempt + 1) (backoffDelay base cap attempt :: acc) hacc' hprior'
        constructor
        · intro k msg a d hEq
          rw [hF] at hEq
          have := hrec.1 k msg a d hEq
          refine ⟨by omega, this.2.1, this.2.2.1, this.2.2.2⟩
        · intro st b a d hEq
          rw [hF] at hEq
          have := hrec.2 st b a d hEq
          refine ⟨this.1, by omega, this.2.2.1, this.2.2.2⟩

/-- C10: in `HttpFetcher.fetch` a blocked classification (HTTP 401/403 or a
block-indicating body) raises `BlockedError`, which — being a subclass of
`FetchError` — is caught by `except (httpx.RequestError, FetchError)`
exactly like a transient transport failure: every failed non-final attempt,
whatever its exception kind, sleeps the same `min(base**attempt, cap)`
backoff and is retried; an exception surfaces to the caller only from the
final attempt (`attempt = retries - 1`), and a success after earlier
blocked/failed attempts surfaces as a success. -/
theorem c10_blocked_retry (retries : Nat) (attempts : Nat → AttemptInput) (base cap : ℚ)
    (hr : 1 ≤ retries) :
    (∀ k msg a d, httpFetch retries attempts base cap = .raised k msg a d →
      a = retries - 1 ∧ classifyAttempt (attempts a) = .raised k msg ∧
      d = (List.range a).map (backoffDelay base cap) ∧
      ∀ j, j < a → ∃ k' m', classifyAttempt (attempts j) = .raised k' m') ∧
    (∀ st b a d, httpFetch retries attempts base cap = .success st b a d →
      classifyAttempt (attempts a) = .retOk st b ∧ a < retries ∧
      d = (List.range a).map (backoffDelay base cap) ∧
      ∀ j, j < a → ∃ k' m', classifyAttempt (attempts j) = .raised k' m') := by
  have h := fetchGo_spec attempts base cap retries 0 []
    (by simp) (by intro j hj; omega)
  unfold httpFetch
  constructor
  · intro k msg a d hEq
    have := h.1 k msg a d hEq
    refine ⟨by omega, this.2.1, this.2.2.1, this.2.2.2⟩
  · intro st b a d hEq
    have := h.2 st b a d hEq
    refine ⟨this.1, by omega, this.2.2.1, this.2.2.2⟩

/-- Witness for the C10 theorem: two attempts, the first blocked by a 403,
the second succeeding. -/
theorem c10_blocked_retry_witness :
    1 ≤ 2 ∧
      ((∀ k msg a d,
          httpFetch 2 (fun k => if k = 0 then .response 403 "x" else .response 200 "ok") (3/2) 30
            = .raised k msg a d →
          a = 2 - 1 ∧
          classifyAttempt ((fun k => if k = 0 then .response 403 "x" else .response 200 "ok") a)
            = .raised k msg ∧
          d = (List.range a).map (backoffDelay (3/2) 30) ∧
          ∀ j, j < a → ∃ k' m',
            classifyAttempt ((fun k => if k = 0 then .response 403 "x" else .response 200 "ok") j)
              = .raised k' m') ∧
        (∀ st b a d,
          httpFetch 2 (fun k => if k = 0 then .response 403 "x" else .response 200 "ok") (3/2) 30
            = .success st b a d →
          classifyAttempt ((fun k => if k = 0 then .response 403 "x" else .response 200 "ok") a)
            = .retOk st b ∧ a < 2 ∧
          d = (List.range a).map (backoffDelay (3/2) 30) ∧
          ∀ j, j < a → ∃ k' m',
            classifyAttempt ((fun k => if k = 0 then .response 403 "x" else .response 200 "ok") j)
              = .raised k' m')) :=
  ⟨by decide,
    c10_blocked_retry 2 (fun k => if k = 0 then .response 403 "x" else .response 200 "ok")
      (3/2) 30 (by decide)⟩

theorem joinSep_singleton (sep x : String) : joinSep sep [x] = x := rfl

theorem packSentences_cons_ne (maxT : Nat) (s : String) (rest current : List String)
    (hs : ¬s = "") :
    packSentences maxT (s :: rest) current =
      if maxT < estimate_tokens (pyStrip (joinSep " " (current ++ [s]))) && !current.isEmpty then
        pyStrip (joinSep " " current) :: packSentences maxT rest [s]
      else packSentences maxT rest (current ++ [s]) := by
  conv_lhs => rw [packSentences]
  rw [if_neg hs]

theorem packSentences_mem (maxT : Nat) (P : List String) :
    ∀ (pieces current : List String),
      (∀ p, p ∈ pieces → p ∈ P) →
      (current = [] ∨ estimate_tokens (pyStrip (joinSep " " current)) ≤ maxT ∨
        ∃ u ∈ P, current = [u]) →
      ∀ e ∈ packSentences maxT pieces current,
        estimate_tokens e ≤ maxT ∨ ∃ u ∈ P, e = pyStrip u := by
  intro pieces
  induction pieces with
  | nil =>
    intro current hsub hinv e he
    unfold packSentences at he
    by_cases hc : current.isEmpty = true
    · rw [if_pos hc] at he
      exact absurd he (List.not_mem_nil e)
    · rw [if_neg hc] at he
      have he' : e = pyStrip (joinSep " " current) := List.mem_singleton.mp he
      subst he'
      rcases hinv with h0 | hle | ⟨u, hu, hcur⟩
      · rw [h0] at hc
        exact absurd rfl hc
      · exact Or.inl hle
      · subst hcur
        rw [joinSep_singleton]
        exact Or.inr ⟨u, hu, rfl⟩
  | cons s rest ih =>
    intro current hsub hinv e he
    by_cases hs : s = ""
    · rw [show packSentences maxT (s :: rest) current = packSentences maxT rest current from by
        conv_lhs => rw [packSentences]
        rw [if_pos hs]] at he
      exact ih current (fun p hp => hsub p (List.mem_cons_of_mem s hp)) hinv e he
    · rw [packSentences_cons_ne maxT s rest current hs] at he
      by_cases hcond : (maxT < estimate_tokens (pyStrip (joinSep " " (current ++ [s])))
          && !current.isEmpty) = true
      · rw [if_pos hcond] at he
        rcases List.mem_cons.mp he with he' | htail
        · subst he'
          have hcur : ¬current.isEmpty = true := by
            rcases (Bool.and_eq_true _ _).mp hcond with ⟨_, h2⟩
            simp only [Bool.not_eq_true'] at h2
            simp [h2]
          rcases hinv with h0 | hle | ⟨u, hu, hcur'⟩
          · rw [h0] at hcur
            exact absurd rfl hcur
          · exact Or.inl hle
          · subst hcur'
            rw [joinSep_singleton]
            exact Or.inr ⟨u, hu, rfl⟩
        · refine ih [s] (fun p hp => hsub p (List.mem_cons_of_mem s hp)) ?_ e htail
          exact Or.inr (Or.inr ⟨s, hsub s (List.mem_cons_self s rest), rfl⟩)
      · rw [if_neg hcond] at he
        refine ih (current ++ [s]) (fun p hp => hsub p (List.mem_cons_of_mem s hp)) ?_ e he
        by_cases hcur : current = []
        · subst hcur
          exact Or.inr (Or.inr ⟨s, hsub s (List.mem_cons_self s rest), rfl⟩)
        · have hne : current.isEmpty = false := by
            cases current
            · exact absurd rfl hcur
            · rfl
          have hle : ¬maxT < estimate_tokens (pyStrip (joinSep " " (current ++ [s]))) := by
            intro hlt
            exact hcond (by rw [hne]; simp [hlt])
          exact Or.inr (Or.inl (Nat.le_of_not_lt hle))

theorem packItems_cons (maxT : Nat) (i : String) (rest current : List String) :
    packItems maxT (i :: rest) current =
      if maxT < estimate_tokens (pyStrip (joinSep "\n" (current ++ [i]))) && !current.isEmpty then
        pyStrip (joinSep "\n" current) :: packItems maxT rest [i]
      else packItems maxT rest (current ++ [i]) := by
  conv_lhs => rw [packItems]

theorem packItems_mem (maxT : Nat) (P : List String) :
    ∀ (pieces current : List String),
      (∀ p, p ∈ pieces → p ∈ P) →
      (current = [] ∨ estimate_tokens (pyStrip (joinSep "\n" current)) ≤ maxT ∨
        ∃ u ∈ P, current = [u]) →
      ∀ e ∈ packItems maxT pieces current,
        estimate_tokens e ≤ maxT ∨ ∃ u ∈ P, e = pyStrip u := by
  intro pieces
  induction pieces with
  | nil =>
    intro current hsub hinv e he
    unfold packItems at he
    by_cases hc : current.isEmpty = true
    · rw [if_pos hc] at he
      exact absurd he (List.not_mem_nil e)
    · rw [if_neg hc] at he
      have he' : e = pyStrip (joinSep "\n" current) := List.mem_singleton.mp he
      subst he'
      rcases hinv with h0 | hle | ⟨u, hu, hcur⟩
      · rw [h0] at hc
        exact absurd rfl hc
      · exact Or.inl hle
      · subst hcur
        rw [joinSep_singleton]
        exact Or.inr ⟨u, hu, rfl⟩
  | cons i rest ih =>
    intro current hsub hinv e he
    rw [packItems_cons maxT i rest current] at he
    by_cases hcond : (maxT < estimate_tokens (pyStrip (joinSep "\n" (current ++ [i])))
        && !current.isEmpty) = true
    · rw [if_pos hcond] at he
      rcases List.mem_cons.mp he with he' | htail
      · subst he'
        have hcur : ¬current.isEmpty = true := by
          rcases (Bool.and_eq_true _ _).mp hcond with ⟨_, h2⟩
          simp only [Bool.not_eq_true'] at h2
          simp [h2]
        rcases hinv with h0 | hle | ⟨u, hu, hcur'⟩
        · rw [h0] at hcur
          exact absurd rfl hcur
        · exact Or.inl hle
        · subst hcur'
          rw [joinSep_singleton]
          exact Or.inr ⟨u, hu, rfl⟩
      · refine ih [i] (fun p hp => hsub p (List.mem_cons_of_mem i hp)) ?_ e htail
        exact Or.inr (Or.inr ⟨i, hsub i (List.mem_cons_self i rest), rfl⟩)
    · rw [if_neg hcond] at he
      refine ih (current ++ [i]) (fun p hp => hsub p (List.mem_cons_of_mem i hp)) ?_ e he
      by_cases hcur : current = []
      · subst hcur
        exact Or.inr (Or.inr ⟨i, hsub i (List.mem_cons_self i rest), rfl⟩)
      · have hne : current.isEmpty = false := by
          cases current
          · exact absurd rfl hcur
          · rfl
        have hle : ¬maxT < estimate_tokens (pyStrip (joinSep "\n" (current ++ [i]))) := by
          intro hlt
          exact hcond (by rw [hne]; simp [hlt])
        exact Or.inr (Or.inl (Nat.le_of_not_lt hle))

theorem flushCurrent_mem (a : Article) (sec : MdSection) (maxT : Nat) :
    ∀ (current : List String) (idx : Nat),
      (current = [] ∨ estimate_tokens (pyStrip (joinSep "\n\n" current)) ≤ maxT) →
      ∀ c ∈ (flushCurrent a sec current idx).1, c.tokens_estimate ≤ maxT := by
  intro current idx hinv c hc
  unfold flushCurrent at hc
  by_cases h1 : current.isEmpty = true
  · rw [if_pos h1] at hc
    exact absurd hc (List.not_mem_nil c)
  · rw [if_neg h1] at hc
    by_cases h2 : pyStrip (joinSep "\n\n" current) = ""
    · rw [if_pos h2] at hc
      exact absurd hc (List.not_mem_nil c)
    · rw [if_neg h2] at hc
      have hc' : c = build_chunk a sec (pyStrip (joinSep "\n\n" current)) idx :=
        List.mem_singleton.mp hc
      subst hc'
      rcases hinv with h0 | hle
      · rw [h0] at h1
        exact absurd rfl h1
      · exact le_trans (estimate_normalize_le _) hle

theorem emitSubs_cur (a : Article) (sec : MdSection) :
    ∀ (subs current : List String) (idx : Nat),
      (emitSubs a sec subs current idx).2.1 = current ∨
        (emitSubs a sec subs current idx).2.1 = [] := by
  intro subs
  induction subs with
  | nil => intro current idx; exact Or.inl rfl
  | cons sub rest ih =>
    intro current idx
    unfold emitSubs
    rcases ih [] ((flushCurrent a sec current idx).2 + 1) with h | h
    · exact Or.inr h
    · exact Or.inr h

theorem emitSubs_mem (a : Article) (sec : MdSection) (maxT : Nat) :
    ∀ (subs current : List String) (idx : Nat),
      (∀ s ∈ subs, estimate_tokens s ≤ maxT ∨ ∃ u ∈ allUnits a, s = pyStrip u) →
      (current = [] ∨ estimate_tokens (pyStrip (joinSep "\n\n" current)) ≤ maxT) →
      ∀ c ∈ (emitSubs a sec subs current idx).1,
        c.tokens_estimate ≤ maxT ∨
          ∃ u ∈ allUnits a, c.text = normalize_whitespace (pyStrip u) ∧
            maxT < estimate_tokens (pyStrip u) := by
  intro subs
  induction subs with
  | nil =>
    intro current idx _ _ c hc
    exact absurd hc (List.not_mem_nil c)
  | cons sub rest ih =>
    intro current idx hsubs hinv c hc
    unfold emitSubs at hc
    rcases List.mem_append.mp hc with hpre | hrest
    · exact Or.inl (flushCurrent_mem a sec maxT current idx hinv c hpre)
    · rcases List.mem_cons.mp hrest with hc' | htail
      · subst hc'
        rcases hsubs sub (List.mem_cons_self sub rest) with hle | ⟨u, hu, hsu⟩
        · exact Or.inl (le_trans (estimate_normalize_le _) hle)
        · rcases le_or_lt (build_chunk a sec sub
              ((flushCurrent a sec current idx).2)).tokens_estimate maxT with h | h
          · exact Or.inl h
          · refine Or.inr ⟨u, hu, by rw [hsu]; rfl, ?_⟩
            have : (build_chunk a sec sub ((flushCurrent a sec current idx).2)).tokens_estimate
                = estimate_tokens (normalize_whitespace sub) := rfl
            rw [this, hsu] at h
            exact lt_of_lt_of_le h (estimate_normalize_le _)
      · exact ih [] ((flushCurrent a sec current idx).2 + 1)
          (fun s hs => hsubs s (List.mem_cons_of_mem sub hs)) (Or.inl rfl) c htail

theorem processBlocks_mem (a : Article) (cfg : ChunkCfg) (sec : MdSection) :
    ∀ (blocks current : List String) (idx : Nat),
      (∀ b ∈ blocks, ∀ u ∈ unitsOfBlock b, u ∈ allUnits a) →
      (current = [] ∨ estimate_tokens (pyStrip (joinSep "\n\n" current)) ≤ cfg.max_tokens) →
      ∀ c ∈ (processBlocks a cfg sec blocks current idx).1,
        c.tokens_estimate ≤ cfg.max_tokens ∨
          ∃ u ∈ allUnits a, c.text = normalize_whitespace (pyStrip u) ∧
            cfg.max_tokens < estimate_tokens (pyStrip u) := by
  intro blocks
  induction blocks with
  | nil =>
    intro current idx _ hinv c hc
    exact Or.inl (flushCurrent_mem a sec cfg.max_tokens current idx hinv c hc)
  | cons b rest ih =>
    intro current idx hunits hinv c hc
    have hbu : ∀ u ∈ unitsOfBlock b, u ∈ allUnits a :=
      hunits b (List.mem_cons_self b rest)
    have hrestu : ∀ b' ∈ rest, ∀ u ∈ unitsOfBlock b', u ∈ allUnits a :=
      fun b' hb' => hunits b' (List.mem_cons_of_mem b hb')
    unfold processBlocks at hc
    by_cases hov : cfg.max_tokens < estimate_tokens b
    · rw [if_pos hov] at hc
      have hsubs : ∀ s ∈ (if is_list_block b then split_list_block b cfg.max_tokens
          else split_long_text b cfg.max_tokens),
          estimate_tokens s ≤ cfg.max_tokens ∨ ∃ u ∈ allUnits a, s = pyStrip u := by
        intro s hs
        by_cases hl : is_list_block b = true
        · rw [if_pos hl] at hs
          have := packItems_mem cfg.max_tokens (listItemsOf b) (listItemsOf b) []
            (fun p hp => hp) (Or.inl rfl) s hs
          rcases this with h | ⟨u, hu, hsu⟩
          · exact Or.inl h
          · refine Or.inr ⟨u, ?_, hsu⟩
            apply hbu
            unfold unitsOfBlock
            rw [if_pos hl]
            exact hu
        · rw [if_neg hl] at hs
          have := packSentences_mem cfg.max_tokens (splitSentences b) (splitSentences b) []
            (fun p hp => hp) (Or.inl rfl) s hs
          rcases this with h | ⟨u, hu, hsu⟩
          · exact Or.inl h
          · refine Or.inr ⟨u, ?_, hsu⟩
            apply hbu
            unfold unitsOfBlock
            rw [if_neg hl]
            exact hu
      rcases List.mem_append.mp hc with hstep | hdone
      · exact emitSubs_mem a sec cfg.max_tokens _ current idx hsubs hinv c hstep
      · refine ih _ _ hrestu ?_ c hdone
        rcases emitSubs_cur a sec (if is_list_block b then split_list_block b cfg.max_tokens
            else split_long_text b cfg.max_tokens) current idx with h | h
        · rw [h]
          exact hinv
        · rw [h]
          exact Or.inl rfl
    · rw [if_neg hov] at hc
      by_cases hcond : (cfg.max_tokens <
          estimate_tokens (pyStrip (joinSep "\n\n" (current ++ [b]))) && !current.isEmpty) = true
      · rw [if_pos hcond] at hc
        rcases List.mem_append.mp hc with hpre | hdone
        · exact Or.inl (flushCurrent_mem a sec cfg.max_tokens current idx hinv c hpre)
        · refine ih [b] _ hrestu ?_ c hdone
          refine Or.inr ?_
          rw [joinSep_singleton]
          exact le_trans (estimate_pyStrip_le b) (Nat.le_of_not_lt hov)
      · rw [if_neg hcond] at hc
        refine ih (current ++ [b]) idx hrestu ?_ c hc
        by_cases hcur : current = []
        · subst hcur
          refine Or.inr ?_
          rw [List.nil_append, joinSep_singleton]
          exact le_trans (estimate_pyStrip_le b) (Nat.le_of_not_lt hov)
        · have hne : current.isEmpty = false := by
            cases current
            · exact absurd rfl hcur
            · rfl
          have hle : ¬cfg.max_tokens <
              estimate_tokens (pyStrip (joinSep "\n\n" (current ++ [b]))) := by
            intro hlt
            exact hcond (by rw [hne]; simp [hlt])
          exact Or.inr (Nat.le_of_not_lt hle)

theorem chunkLoop_mem (a : Article) (cfg : ChunkCfg) :
    ∀ (secs : List MdSection) (idx : Nat),
      (∀ sec ∈ secs, ∀ b ∈ split_blocks sec.content, ∀ u ∈ unitsOfBlock b, u ∈ allUnits a) →
      ∀ c ∈ chunkLoop a cfg secs idx,
        c.tokens_estimate ≤ cfg.max_tokens ∨
          ∃ u ∈ allUnits a, c.text = normalize_whitespace (pyStrip u) ∧
            cfg.max_tokens < estimate_tokens (pyStrip u) := by
  intro secs
  induction secs with
  | nil =>
    intro idx _ c hc
    exact absurd hc (List.not_mem_nil c)
  | cons sec rest ih =>
    intro idx hsecs c hc
    unfold chunkLoop at hc
    rcases List.mem_append.mp hc with hdone | htail
    · exact processBlocks_mem a cfg sec _ [] idx
        (fun b hb => hsecs sec (List.mem_cons_self sec rest) b hb) (Or.inl rfl) c hdone
    · exact ih _ (fun s hs => hsecs s (List.mem_cons_of_mem sec hs)) c htail

/-- C1 counterexample: for the article `artMerge` (two short list blocks)
with `max_tokens = 2 ≥ 1` and `min_tokens = 5`, the merge pass of
`chunk_article` (chunker.py lines 162-176) concatenates the two undersized
chunks into one final chunk whose estimate (4) exceeds `max_tokens`, and
that chunk is not a single atomic unit: it is not the (normalized) image of
any sentence or list item of the article, it splits into two sentences, and
it groups into two list items. -/
theorem c1_counterexample :
    ∃ c ∈ chunk_article artMerge cfgMerge,
      cfgMerge.max_tokens < c.tokens_estimate ∧
        (∀ u ∈ allUnits artMerge,
          ¬(c.text = normalize_whitespace (pyStrip u) ∧
            cfgMerge.max_tokens < estimate_tokens (pyStrip u))) ∧
        2 ≤ ((splitSentences c.text).filter (fun s => s ≠ "")).length ∧
        2 ≤ (listItemsOf c.text).length := by
  decide

/-- C1 (amended): for every article and config with `max_tokens ≥ 1`, every
chunk of the sequence built by the packing phase — before the merge pass —
has `tokens_estimate ≤ max_tokens`, except a chunk that is the
whitespace-normalized form of one atomic unit (one sentence, or one list
item group, of a block) whose solitary estimate already exceeds
`max_tokens`.  The post-merge output can violate the bound, because the
merge pass concatenates undersized chunks into their predecessor without
re-checking `max_tokens`. -/
theorem c1_premerge_bound (a : Article) (cfg : ChunkCfg) (hmax : 1 ≤ cfg.max_tokens) :
    ∀ c ∈ premergeChunks a cfg,
      c.tokens_estimate ≤ cfg.max_tokens ∨
        ∃ u ∈ allUnits a, c.text = normalize_whitespace (pyStrip u) ∧
          cfg.max_tokens < estimate_tokens (pyStrip u) := by
  intro c hc
  unfold premergeChunks at hc
  refine chunkLoop_mem a cfg (parse_sections a.body_markdown a.title) 0 ?_ c hc
  intro sec hsec b hb u hu
  unfold allUnits
  refine List.mem_flatMap.mpr ⟨b, ?_, hu⟩
  unfold blocksOf
  exact List.mem_flatMap.mpr ⟨sec, hsec, hb⟩

/-- Witness for the amended C1 theorem: the first pre-merge chunk of the
concrete article. -/
theorem c1_premerge_bound_witness :
    1 ≤ cfgMerge.max_tokens ∧
      ((chunkZero).tokens_estimate ≤ cfgMerge.max_tokens ∨
        ∃ u ∈ allUnits artMerge, (chunkZero).text = normalize_whitespace (pyStrip u) ∧
          cfgMerge.max_tokens < estimate_tokens (pyStrip u)) :=
  ⟨by decide, c1_premerge_bound artMerge cfgMerge (by decide) chunkZero (by decide)⟩
